import Mathlib

/-!
Verification of the Effect View Lifecycle Manager of the
tauri-plugin-liquid-glass repository, as a shallow embedding of the Rust
sources (src/glass_effect/{mod,operations,registry,backend,utils}.rs,
src/macos/glass_effect.rs, src/commands.rs, src/models.rs, src/error.rs).

Modelling conventions:
- Objective-C object pointers (`cocoa::base::id`) are addresses (`Nat`),
  0 standing for `nil`.
- `f64`/`CGFloat` values are modelled as exact rationals: the code performs
  no floating-point arithmetic other than the exact-in-intent division of a
  byte by 255 when parsing colors, and otherwise only passes values through.
- The Objective-C heap is an explicit `World` state; `msg_send!` calls
  become state transformers on it.  Messages to objects the world does not
  know are no-ops returning defaults, mirroring messaging `nil`.
- The mutex-guarded registry is a state plus a `poisoned` flag; `lock()`
  on a poisoned mutex yields the `RegistryLockFailed` error as in the code.
-/

/-- Decidable equality of `Except` results, for evaluating operation
outcomes on concrete inputs. -/
instance {ε α : Type} [DecidableEq ε] [DecidableEq α] : DecidableEq (Except ε α) := fun a b =>
  match a, b with
  | .error e, .error e' =>
    if h : e = e' then isTrue (by rw [h]) else isFalse (fun hh => by cases hh; exact h rfl)
  | .ok x, .ok y =>
    if h : x = y then isTrue (by rw [h]) else isFalse (fun hh => by cases hh; exact h rfl)
  | .error _, .ok _ => isFalse (fun hh => by cases hh)
  | .ok _, .error _ => isFalse (fun hh => by cases hh)

namespace LiquidGlass

/-- CGFloat / f64 values carried by the code, modelled as exact rationals
(the code only passes them through; see the module docstring). -/
abbrev CGFloat := Rat

/-- An Objective-C object pointer (`cocoa::base::id`), as its address. -/
abbrev ObjcId := Nat

/-- `cocoa::base::nil` (the null pointer). -/
def objcNil : ObjcId := 0

-- ===========================================================================
-- Association-list maps (the model of `std::collections::HashMap` and of the
-- Objective-C heap's object tables)
-- ===========================================================================

/-- Lookup in an association list (first matching key, as in a map whose keys
are unique). -/
def assocGet {κ α : Type} [DecidableEq κ] : List (κ × α) → κ → Option α
  | [], _ => none
  | (k, v) :: rest, i => if k = i then some v else assocGet rest i

/-- Map insertion: replace the value at the first occurrence of the key, or
append a fresh binding.  Mirrors `HashMap::insert`'s overwrite semantics. -/
def assocInsert {κ α : Type} [DecidableEq κ] : List (κ × α) → κ → α → List (κ × α)
  | [], k, v => [(k, v)]
  | (k', v') :: rest, k, v =>
    if k' = k then (k, v) :: rest else (k', v') :: assocInsert rest k v

/-- Map removal: drop the first binding with the key.  Mirrors
`HashMap::remove` under the unique-keys invariant. -/
def assocRemove {κ α : Type} [DecidableEq κ] : List (κ × α) → κ → List (κ × α)
  | [], _ => []
  | (k', v') :: rest, k => if k' = k then rest else (k', v') :: assocRemove rest k

/-- The keys of the association list are pairwise distinct (the invariant a
`HashMap` maintains by construction). -/
def keysNodupB {κ α : Type} [DecidableEq κ] : List (κ × α) → Bool
  | [] => true
  | (k, _) :: rest => (assocGet rest k).isNone && keysNodupB rest

/-- How many bindings an association list has for a key. -/
def countKey {κ α : Type} [DecidableEq κ] : List (κ × α) → κ → Nat
  | [], _ => 0
  | (k, _) :: rest, i => (if k = i then 1 else 0) + countKey rest i


-- ===========================================================================
-- registry.rs: ViewHandle
-- ===========================================================================

/-- registry.rs: `pub struct ViewHandle(usize);` — a thread-safe handle to an
NSView stored as a raw pointer address. -/
structure ViewHandle where
  addr : Nat
deriving DecidableEq, Repr

/-- registry.rs `ViewHandle::new`: `Self(view as usize)`. -/
def ViewHandle.new (view : ObjcId) : ViewHandle := ⟨view⟩

/-- registry.rs `ViewHandle::as_id`: `self.0 as id`. -/
def ViewHandle.as_id (h : ViewHandle) : ObjcId := h.addr

-- ===========================================================================
-- error.rs: Error
-- ===========================================================================

/-- error.rs `Error`.  The variants below `Tauri` are the ones the visible
part of error.rs declares; `RegistryLockFailed` is the variant registry.rs
constructs (declared in a revision of error.rs not shipped in this tree). -/
inductive Error where
  | UnsupportedPlatform
  | UnsupportedMacOSVersion
  | WindowNotFound (label : String)
  | ViewCreationFailed
  | InvalidColorFormat (s : String)
  | Tauri
  | RegistryLockFailed
deriving DecidableEq, Repr

-- ===========================================================================
-- utils.rs: color parsing
-- ===========================================================================

/-- An NSColor made by `colorWithRed:green:blue:alpha:` with normalized
components. -/
structure NSColor where
  r : CGFloat
  g : CGFloat
  b : CGFloat
  a : CGFloat
deriving DecidableEq, Repr

/-- `char::to_digit(16)`. -/
def hexDigit (c : Char) : Option Nat :=
  if '0' ≤ c ∧ c ≤ '9' then some (c.toNat - '0'.toNat)
  else if 'a' ≤ c ∧ c ≤ 'f' then some (c.toNat - 'a'.toNat + 10)
  else if 'A' ≤ c ∧ c ≤ 'F' then some (c.toNat - 'A'.toNat + 10)
  else none

/-- Digit-accumulation loop of `u32::from_str_radix(_, 16)` with the u32
overflow check (`checked_mul`/`checked_add`). -/
def hexAccum : List Char → Nat → Option Nat
  | [], acc => some acc
  | c :: rest, acc =>
    match hexDigit c with
    | none => none
    | some d =>
      if acc * 16 + d < 2 ^ 32 then hexAccum rest (acc * 16 + d) else none

/-- A byte component divided by 255, as in `(x & 0xFF) as f64 / 255.0`
(the exact rational x/255). -/
def byteComponent (x : Nat) : CGFloat := mkRat x 255

/-- Rust `str::trim` (drop leading and trailing whitespace), on the
character list of the string. -/
def trimChars (cs : List Char) : List Char :=
  ((cs.dropWhile Char.isWhitespace).reverse.dropWhile Char.isWhitespace).reverse

/-- utils.rs relies on `u32::from_str_radix(hex, 16)`: an optional leading
sign, then one or more hex digits; for the unsigned type a `-` sign only
parses when the digits denote zero (checked subtraction from zero). -/
def u32FromCharsRadix16 (cs : List Char) : Option Nat :=
  match cs with
  | [] => none
  | c :: rest =>
    if c = '+' then
      match rest with
      | [] => none
      | _ => hexAccum rest 0
    else if c = '-' then
      match rest with
      | [] => none
      | _ =>
        match hexAccum rest 0 with
        | some 0 => some 0
        | _ => none
    else hexAccum (c :: rest) 0

/-- utils.rs `color_from_hex`, on the character list of the input.
`trim_start_matches('#')` strips every leading `#`, hence the `dropWhile`;
`(rgba >> k) & 0xFF` is `(rgba >>> k) % 256`. -/
def colorFromHexChars (cs : List Char) : Option NSColor :=
  let stripped := (trimChars cs).dropWhile (fun c => c == '#')
  if stripped.length ≠ 6 ∧ stripped.length ≠ 8 then none
  else
    match u32FromCharsRadix16 stripped with
    | none => none
    | some rgba =>
      if stripped.length = 6 then
        some ⟨byteComponent ((rgba >>> 16) % 256), byteComponent ((rgba >>> 8) % 256),
              byteComponent (rgba % 256), 1⟩
      else
        some ⟨byteComponent ((rgba >>> 24) % 256), byteComponent ((rgba >>> 16) % 256),
              byteComponent ((rgba >>> 8) % 256), byteComponent (rgba % 256)⟩

/-- utils.rs `color_from_hex`. -/
def color_from_hex (hex : String) : Option NSColor :=
  colorFromHexChars hex.toList


-- ===========================================================================
-- models.rs: configuration
-- ===========================================================================

/-- models.rs `GlassMaterialVariant` (`#[repr(i64)]`, discriminants 0..23). -/
inductive GlassMaterialVariant where
  | Regular | Clear | Dock | AppIcons | Widgets | Text | Avplayer | Facetime
  | ControlCenter | NotificationCenter | Monogram | Bubbles | Identity
  | FocusBorder | FocusPlatter | Keyboard | Sidebar | AbuttedSidebar
  | Inspector | Control | Loupe | Slider | Camera | CartouchePopover
deriving DecidableEq, Repr

/-- The `config.variant as i64` cast (the `#[repr(i64)]` discriminant). -/
def GlassMaterialVariant.toI64 : GlassMaterialVariant → Int
  | .Regular => 0 | .Clear => 1 | .Dock => 2 | .AppIcons => 3 | .Widgets => 4
  | .Text => 5 | .Avplayer => 6 | .Facetime => 7 | .ControlCenter => 8
  | .NotificationCenter => 9 | .Monogram => 10 | .Bubbles => 11
  | .Identity => 12 | .FocusBorder => 13 | .FocusPlatter => 14
  | .Keyboard => 15 | .Sidebar => 16 | .AbuttedSidebar => 17
  | .Inspector => 18 | .Control => 19 | .Loupe => 20 | .Slider => 21
  | .Camera => 22 | .CartouchePopover => 23

/-- Modelled from the spec: `LiquidGlassConfig` (the EffectConfig of section 3)
is declared in a revision of models.rs not shipped in this tree; its fields and
defaults follow the spec and the uses in operations.rs (`enabled`,
`corner_radius`, `tint_color`, `variant`) — enabled=true, cornerRadius=0,
tintColor=none, variant=Regular, opaque=false.  The Rust field named
after the window-opacity flag is `opaqueBackground` here because its Rust
name is a reserved word in Lean. -/
structure LiquidGlassConfig where
  enabled : Bool := true
  corner_radius : CGFloat := 0
  tint_color : Option String := none
  variant : GlassMaterialVariant := .Regular
  opaqueBackground : Bool := false
deriving DecidableEq, Repr

-- ===========================================================================
-- The Objective-C world: views, layers, windows
-- ===========================================================================

/-- Backing-layer state touched by the code (`setCornerRadius:`,
`setMasksToBounds:`, `setBackgroundColor:`). -/
structure CALayer where
  cornerRadius : CGFloat := 0
  masksToBounds : Bool := false
  backgroundColor : Option NSColor := none
deriving DecidableEq, Repr

/-- An NSRect, as passed through `bounds` / `initWithFrame:`. -/
structure NSRect where
  x : CGFloat := 0
  y : CGFloat := 0
  w : CGFloat := 0
  h : CGFloat := 0
deriving DecidableEq, Repr

/-- The Objective-C class a view was instantiated from. -/
inductive ViewClass where
  | glassEffectView
  | visualEffectView
  | plainView
deriving DecidableEq, Repr

/-- `NSVisualEffectBlendingMode` values the code uses. -/
inductive BlendingMode where
  | behindWindow
deriving DecidableEq, Repr

/-- `NSVisualEffectMaterial` values the code uses. -/
inductive VEMaterial where
  | underWindowBackground
deriving DecidableEq, Repr

/-- `NSVisualEffectState` values the code uses. -/
inductive VEState where
  | active
deriving DecidableEq, Repr

/-- An NSView's state, restricted to the properties the code reads or
writes.  `layer` is the id of the backing CALayer, 0 when none. -/
structure NSView where
  cls : ViewClass
  frame : NSRect := {}
  autoresizingMask : Nat := 0
  wantsLayer : Bool := false
  layer : ObjcId := 0
  tintColor : Option NSColor := none
  variantProp : Option Int := none
  subviews : List ObjcId := []
  blendingMode : Option BlendingMode := none
  material : Option VEMaterial := none
  veState : Option VEState := none
deriving DecidableEq, Repr

/-- An NSWindow's state, restricted to what the code reads
(`contentView`, `isOpaque`). -/
structure NSWindow where
  contentView : ObjcId
  isOpaque : Bool := true
deriving DecidableEq, Repr

/-- The Objective-C heap.  `nextId` is the next fresh address `alloc`
hands out. -/
structure World where
  views : List (ObjcId × NSView) := []
  layers : List (ObjcId × CALayer) := []
  windows : List (ObjcId × NSWindow) := []
  nextId : ObjcId := 1
deriving DecidableEq, Repr

/-- Resolve a view id; messaging `nil` (0) reaches no object. -/
def World.getView (w : World) (i : ObjcId) : Option NSView :=
  if i = 0 then none else assocGet w.views i

/-- Store a view record at an id. -/
def World.setView (w : World) (i : ObjcId) (v : NSView) : World :=
  { w with views := assocInsert w.views i v }

/-- `alloc`/`initWithFrame:` of a view: a fresh address. -/
def World.allocView (w : World) (v : NSView) : ObjcId × World :=
  (w.nextId,
   { w with
       views := assocInsert w.views w.nextId v,
       nextId := w.nextId + 1 })

/-- `alloc` of a layer: a fresh address. -/
def World.allocLayer (w : World) (l : CALayer) : ObjcId × World :=
  (w.nextId,
   { w with
       layers := assocInsert w.layers w.nextId l,
       nextId := w.nextId + 1 })

/-- `msg_send![view, layer]`: the backing layer's id, `nil` (0) when the
view is unknown or not layer backed. -/
def World.viewLayerId (w : World) (i : ObjcId) : ObjcId :=
  match w.getView i with
  | some v => v.layer
  | none => 0

/-- `msg_send![view, bounds]`. -/
def World.viewBounds (w : World) (i : ObjcId) : NSRect :=
  match w.getView i with
  | some v => v.frame
  | none => {}

/-- `msg_send![view, setWantsLayer: YES]`; AppKit materializes a backing
layer for a layer-backed view that has none yet. -/
def World.setWantsLayer (w : World) (i : ObjcId) : World :=
  match w.getView i with
  | none => w
  | some v =>
    if v.layer ≠ 0 then w.setView i { v with wantsLayer := true }
    else
      let (lid, w') := w.allocLayer {}
      w'.setView i { v with wantsLayer := true, layer := lid }

/-- `msg_send![view, setAutoresizingMask: mask]`. -/
def World.setViewAutoresizingMask (w : World) (i : ObjcId) (m : Nat) : World :=
  match w.getView i with
  | none => w
  | some v => w.setView i { v with autoresizingMask := m }

/-- `msg_send![view, setTintColor: c]` (`none` encodes `nil`). -/
def World.setViewTintColor (w : World) (i : ObjcId) (c : Option NSColor) : World :=
  match w.getView i with
  | none => w
  | some v => w.setView i { v with tintColor := c }

/-- `msg_send![parent, addSubview: child]` (appends on top). -/
def World.addSubview (w : World) (parent child : ObjcId) : World :=
  match w.getView parent with
  | none => w
  | some v => w.setView parent { v with subviews := v.subviews ++ [child] }

/-- `msg_send![parent, addSubview: child positioned: NSWindowBelow
relativeTo: nil]` (inserts below all siblings). -/
def World.addSubviewBelow (w : World) (parent child : ObjcId) : World :=
  match w.getView parent with
  | none => w
  | some v => w.setView parent { v with subviews := child :: v.subviews }

/-- `msg_send![view, removeFromSuperview]`: the view disappears from every
subview list. -/
def World.removeFromSuperview (w : World) (i : ObjcId) : World :=
  let detach := fun (p : ObjcId × NSView) =>
    (p.1, { p.2 with subviews := p.2.subviews.filter (fun c => c ≠ i) })
  { w with views := w.views.map detach }

/-- `msg_send![layer, setCornerRadius: r]`. -/
def World.setLayerCornerRadius (w : World) (lid : ObjcId) (r : CGFloat) : World :=
  if lid = 0 then w else
  match assocGet w.layers lid with
  | none => w
  | some l => { w with layers := assocInsert w.layers lid { l with cornerRadius := r } }

/-- `msg_send![layer, setMasksToBounds: YES]`. -/
def World.setLayerMasksToBounds (w : World) (lid : ObjcId) (b : Bool) : World :=
  if lid = 0 then w else
  match assocGet w.layers lid with
  | none => w
  | some l => { w with layers := assocInsert w.layers lid { l with masksToBounds := b } }

/-- `msg_send![layer, setBackgroundColor: c]` (via `CGColor`, which keeps
the RGBA components). -/
def World.setLayerBackgroundColor (w : World) (lid : ObjcId) (c : Option NSColor) : World :=
  if lid = 0 then w else
  match assocGet w.layers lid with
  | none => w
  | some l => { w with layers := assocInsert w.layers lid { l with backgroundColor := c } }

/-- `msg_send![layer, cornerRadius]` (0 for an unknown layer). -/
def World.layerCornerRadius (w : World) (lid : ObjcId) : CGFloat :=
  match assocGet w.layers lid with
  | some l => l.cornerRadius
  | none => 0

/-- `msg_send![window, contentView]` (0 when the window is unknown,
mirroring a `nil` content view). -/
def World.windowContentView (w : World) (i : ObjcId) : ObjcId :=
  match (if i = 0 then none else assocGet w.windows i) with
  | some win => win.contentView
  | none => 0

/-- Heap sanity: every allocated id is below `nextId`, addresses are
nonzero, and a view's backing-layer id, when set, denotes a layer. -/
def World.wf (w : World) : Prop :=
  (∀ p ∈ w.views, p.1 < w.nextId) ∧
  (∀ p ∈ w.layers, p.1 < w.nextId) ∧
  (∀ p ∈ w.views, p.2.layer = 0 ∨ (assocGet w.layers p.2.layer).isSome = true) ∧
  0 < w.nextId

-- ===========================================================================
-- Runtime platform environment
-- ===========================================================================

/-- Facts about the running platform probed through the Objective-C runtime.
`glassClassAvailable` models `Class::get("NSGlassEffectView").is_some()`.
`isMacOS26OrLater` — Modelled from the spec: macos/utils.rs (which defines
`is_macos_26_or_later`, the minimum-OS-version check) is absent from this
tree, so the check is an opaque environment flag.  The `responds…` fields
model `respondsToSelector:` for the probed variant setters, per class. -/
structure PlatformEnv where
  glassClassAvailable : Bool
  isMacOS26OrLater : Bool
  respondsPrivateVariant : ViewClass → Bool
  respondsPublicVariant : ViewClass → Bool

/-- utils.rs `glass_class_available`. -/
def glass_class_available (env : PlatformEnv) : Bool :=
  env.glassClassAvailable

/-- utils.rs `run_on_main_sync`: executes the closure on the main thread and
hands its result back to the caller; in this sequential model it is plain
application. -/
def run_on_main_sync {α : Type} (f : Unit → α) : α := f ()

/-- glass_effect/mod.rs `is_glass_supported` (the Rust-API helper reached
through desktop.rs `LiquidGlass::is_supported`). -/
def is_glass_supported (env : PlatformEnv) : Bool :=
  run_on_main_sync (fun _ => glass_class_available env)

/-- macos/glass_effect.rs `is_glass_supported`: the implementation behind the
`isSupported` command (commands.rs `is_glass_supported` calls
`macos::is_glass_supported` on macOS). -/
def macos_is_glass_supported (env : PlatformEnv) : Bool :=
  run_on_main_sync (fun _ => env.isMacOS26OrLater && glass_class_available env)

/-- commands.rs `is_glass_supported` (the `isSupported` command surface),
macOS branch. -/
def commands_is_glass_supported (env : PlatformEnv) : Bool :=
  macos_is_glass_supported env

-- ===========================================================================
-- registry.rs: GlassViewRegistry
-- ===========================================================================

/-- registry.rs `GlassViewEntry`. -/
structure GlassViewEntry where
  glass_view : ViewHandle
  tint_overlay : Option ViewHandle
deriving DecidableEq, Repr

/-- registry.rs `GlassViewRegistry`: `Mutex<HashMap<String, GlassViewEntry>>`.
`poisoned` models the mutex having been poisoned by a panicking holder;
`lock()` then returns `Err`, which every operation maps to
`Error::RegistryLockFailed`. -/
structure GlassViewRegistry where
  poisoned : Bool := false
  views : List (String × GlassViewEntry) := []
deriving DecidableEq, Repr

/-- registry.rs `GlassViewRegistry::contains`. -/
def GlassViewRegistry.contains (r : GlassViewRegistry) (label : String) :
    Except Error Bool × GlassViewRegistry :=
  if r.poisoned then (.error .RegistryLockFailed, r)
  else (.ok (assocGet r.views label).isSome, r)

/-- registry.rs `GlassViewRegistry::insert`. -/
def GlassViewRegistry.insert (r : GlassViewRegistry) (label : String)
    (glass_view : ViewHandle) (tint_overlay : Option ViewHandle) :
    Except Error Unit × GlassViewRegistry :=
  if r.poisoned then (.error .RegistryLockFailed, r)
  else (.ok (), { r with views := assocInsert r.views label ⟨glass_view, tint_overlay⟩ })

/-- registry.rs `GlassViewRegistry::get`. -/
def GlassViewRegistry.get (r : GlassViewRegistry) (label : String) :
    Except Error (Option (ViewHandle × Option ViewHandle)) × GlassViewRegistry :=
  if r.poisoned then (.error .RegistryLockFailed, r)
  else (.ok ((assocGet r.views label).map (fun e => (e.glass_view, e.tint_overlay))), r)

/-- registry.rs `GlassViewRegistry::remove`. -/
def GlassViewRegistry.remove (r : GlassViewRegistry) (label : String) :
    Except Error (Option (ViewHandle × Option ViewHandle)) × GlassViewRegistry :=
  if r.poisoned then (.error .RegistryLockFailed, r)
  else
    ((.ok ((assocGet r.views label).map (fun e => (e.glass_view, e.tint_overlay)))),
     { r with views := assocRemove r.views label })

/-- The `get_mut` mutation inside registry.rs `update_tint`: set the
`tint_overlay` field of the entry at the label, if any. -/
def assocUpdateTint : List (String × GlassViewEntry) → String → Option ViewHandle →
    List (String × GlassViewEntry)
  | [], _, _ => []
  | (k, e) :: rest, label, tint =>
    if k = label then (k, { e with tint_overlay := tint }) :: rest
    else (k, e) :: assocUpdateTint rest label tint

/-- registry.rs `GlassViewRegistry::update_tint`. -/
def GlassViewRegistry.update_tint (r : GlassViewRegistry) (label : String)
    (tint : Option ViewHandle) : Except Error Unit × GlassViewRegistry :=
  if r.poisoned then (.error .RegistryLockFailed, r)
  else (.ok (), { r with views := assocUpdateTint r.views label tint })

-- ===========================================================================
-- backend.rs: the GlassBackend strategy
-- ===========================================================================

/-- backend.rs `autoresize_mask`:
`NSViewWidthSizable | NSViewHeightSizable` = 2 ||| 16. -/
def autoresize_mask : Nat := 2 ||| 16

/-- The two `GlassBackend` implementations. -/
inductive Backend where
  | nativeGlass
  | visualEffect
deriving DecidableEq, Repr

/-- backend.rs `get_backend`. -/
def get_backend (env : PlatformEnv) : Backend :=
  if glass_class_available env then .nativeGlass else .visualEffect

/-- backend.rs `create_view` of both implementations.  The native one fails
with `ViewCreationFailed` when `Class::get("NSGlassEffectView")` comes back
empty; the fallback configures blending mode, material and state.  The
`alloc`/`initWithFrame:` pair plus the property setters are folded into the
allocated record. -/
def Backend.create_view (b : Backend) (env : PlatformEnv) (bounds : NSRect)
    (w : World) : Except Error ObjcId × World :=
  match b with
  | .nativeGlass =>
    if glass_class_available env then
      let (glass, w') := w.allocView
        { cls := .glassEffectView, frame := bounds, autoresizingMask := autoresize_mask }
      (.ok glass, w')
    else (.error .ViewCreationFailed, w)
  | .visualEffect =>
    let (visual, w') := w.allocView
      { cls := .visualEffectView, frame := bounds,
        autoresizingMask := autoresize_mask, blendingMode := some .behindWindow,
        material := some .underWindowBackground, veState := some .active }
    (.ok visual, w')

/-- The `Create new overlay view` block of the fallback `apply_tint`
(backend.rs): `alloc`/`initWithFrame:` with the parent's bounds, set the
autoresizing mask, make it layer backed, and add it as a subview of the
parent glass view. -/
def createOverlay (view : ObjcId) (w : World) : ObjcId × World :=
  let bounds := w.viewBounds view
  let (o, wa) := w.allocView { cls := .plainView, frame := bounds }
  let wb := wa.setViewAutoresizingMask o autoresize_mask
  let wc := wb.setWantsLayer o
  let wd := wc.addSubview view o
  (o, wd)

/-- backend.rs `apply_tint` of both implementations.  The native one sets
`setTintColor:` and returns `None`; the fallback creates (or reuses) a
layer-backed overlay subview, paints its layer, mirrors the parent layer's
corner radius onto it, and returns its handle. -/
def Backend.apply_tint (b : Backend) (view layerId : ObjcId) (color : NSColor)
    (existing_overlay : Option ViewHandle) (w : World) : Option ViewHandle × World :=
  match b with
  | .nativeGlass =>
    (none, w.setViewTintColor view (some color))
  | .visualEffect =>
    let (overlay, w₁) :=
      match existing_overlay with
      | some handle => (handle.as_id, w)
      | none => createOverlay view w
    let overlay_layer := w₁.viewLayerId overlay
    let w₂ :=
      if overlay_layer ≠ 0 then
        let wa := w₁.setLayerBackgroundColor overlay_layer (some color)
        if layerId ≠ 0 then
          let radius := wa.layerCornerRadius layerId
          let wb := wa.setLayerCornerRadius overlay_layer radius
          wb.setLayerMasksToBounds overlay_layer true
        else wa
      else w₁
    (some (ViewHandle.new overlay), w₂)

/-- backend.rs `clear_tint` of both implementations. -/
def Backend.clear_tint (b : Backend) (view : ObjcId)
    (existing_overlay : Option ViewHandle) (w : World) : World :=
  match b with
  | .nativeGlass => w.setViewTintColor view none
  | .visualEffect =>
    match existing_overlay with
    | some handle => w.removeFromSuperview handle.as_id
    | none => w

/-- backend.rs `set_view_property`: try the private `set_variant:` selector,
then the public `setVariant:` one; silently no-op when neither responds. -/
def set_view_property (env : PlatformEnv) (w : World) (view : ObjcId)
    (value : Int) : World :=
  match w.getView view with
  | none => w
  | some v =>
    if env.respondsPrivateVariant v.cls then
      w.setView view { v with variantProp := some value }
    else if env.respondsPublicVariant v.cls then
      w.setView view { v with variantProp := some value }
    else w

/-- backend.rs `set_variant` of both implementations (fallback: no-op). -/
def Backend.set_variant (b : Backend) (env : PlatformEnv) (view : ObjcId)
    (variant : Int) (w : World) : World :=
  match b with
  | .nativeGlass => set_view_property env w view variant
  | .visualEffect => w

-- ===========================================================================
-- operations.rs: create / update / remove
-- ===========================================================================

/-- A tauri `WebviewWindow`, restricted to what the operations use: its
label and the outcome of `ns_window()`. -/
structure WindowRef where
  label : String
  ns_window : Option ObjcId
deriving DecidableEq, Repr

/-- The mutable state the operations act on: the Objective-C heap and the
managed `GlassViewRegistry`. -/
structure SysState where
  world : World
  registry : GlassViewRegistry
deriving DecidableEq, Repr

/-- First stage of operations.rs `apply_glass_config`: `setWantsLayer: YES`,
fetch the layer, and — when it is non-nil — set its corner radius from the
config and `setMasksToBounds: YES`.  Returns the fetched layer id. -/
def apply_corner_radius (glass : ObjcId) (radius : CGFloat) (w : World) :
    ObjcId × World :=
  let w₁ := w.setWantsLayer glass
  let layer := w₁.viewLayerId glass
  if layer ≠ 0 then
    let w₂ := w₁.setLayerCornerRadius layer radius
    (layer, w₂.setLayerMasksToBounds layer true)
  else (layer, w₁)

/-- operations.rs `apply_glass_config`: corner radius, then apply or clear
the tint (an unparseable tint string clears), then the variant. -/
def apply_glass_config (env : PlatformEnv) (glass_handle : ViewHandle)
    (config : LiquidGlassConfig) (existing_tint_overlay : Option ViewHandle)
    (w : World) : Option ViewHandle × World :=
  let glass := glass_handle.as_id
  let (layer, w₁) := apply_corner_radius glass config.corner_radius w
  let backend := get_backend env
  let (tint_overlay, w₂) :=
    match config.tint_color with
    | some hex =>
      match color_from_hex hex with
      | some color => backend.apply_tint glass layer color existing_tint_overlay w₁
      | none => (none, backend.clear_tint glass existing_tint_overlay w₁)
    | none => (none, backend.clear_tint glass existing_tint_overlay w₁)
  (tint_overlay, backend.set_variant env glass config.variant.toI64 w₂)

/-- operations.rs `create_and_attach_glass_view`: resolve the content view
(failing with `ViewCreationFailed` when nil), create the backend view, apply
the config, and insert the view below all existing content.  The
transparency checks only emit log warnings and leave the state alone. -/
def create_and_attach_glass_view (env : PlatformEnv)
    (ns_window_handle : ViewHandle) (config : LiquidGlassConfig) (w : World) :
    Except Error (ViewHandle × Option ViewHandle) × World :=
  let ns_window := ns_window_handle.as_id
  let content_view := w.windowContentView ns_window
  if content_view = 0 then (.error .ViewCreationFailed, w)
  else
    let bounds := w.viewBounds content_view
    let backend := get_backend env
    match backend.create_view env bounds w with
    | (.error e, w') => (.error e, w')
    | (.ok glass_view, w₁) =>
      let glass_handle := ViewHandle.new glass_view
      let (tint_overlay, w₂) := apply_glass_config env glass_handle config none w₁
      let w₃ := w₂.addSubviewBelow content_view glass_view
      (.ok (glass_handle, tint_overlay), w₃)

/-- operations.rs `create_glass_effect`: resolve `ns_window()` (failing with
`WindowNotFound`), run the creation on the main thread, then insert the
resulting handles into the registry. -/
def create_glass_effect (env : PlatformEnv) (window : WindowRef)
    (config : LiquidGlassConfig) (st : SysState) : Except Error Unit × SysState :=
  match window.ns_window with
  | none => (.error (.WindowNotFound window.label), st)
  | some nsw =>
    let ns_window_handle := ViewHandle.new nsw
    match run_on_main_sync
        (fun _ => create_and_attach_glass_view env ns_window_handle config st.world) with
    | (.error e, w) => (.error e, { st with world := w })
    | (.ok (glass_view, tint_overlay), w) =>
      match st.registry.insert window.label glass_view tint_overlay with
      | (.error e, r) => (.error e, { world := w, registry := r })
      | (.ok _, r) => (.ok (), { world := w, registry := r })

/-- operations.rs `update_glass_effect`: read the entry (failing with
`WindowNotFound` when absent), re-apply the config on the main thread, and
write back the possibly changed overlay handle. -/
def update_glass_effect (env : PlatformEnv) (window : WindowRef)
    (config : LiquidGlassConfig) (st : SysState) : Except Error Unit × SysState :=
  match st.registry.get window.label with
  | (.error e, r) => (.error e, { st with registry := r })
  | (.ok none, r) => (.error (.WindowNotFound window.label), { st with registry := r })
  | (.ok (some (glass_handle, existing_tint)), r) =>
    let (new_tint, w) := run_on_main_sync
      (fun _ => apply_glass_config env glass_handle config existing_tint st.world)
    match r.update_tint window.label new_tint with
    | (.error e, r') => (.error e, { world := w, registry := r' })
    | (.ok _, r') => (.ok (), { world := w, registry := r' })

/-- operations.rs `remove_glass_effect`: pop the entry; when present, detach
the tint overlay (if any) and then the glass view on the main thread; a
missing entry is fine (the effect was already disabled). -/
def remove_glass_effect (window_label : String) (st : SysState) :
    Except Error Unit × SysState :=
  match st.registry.remove window_label with
  | (.error e, r) => (.error e, { st with registry := r })
  | (.ok entry, r) =>
    match entry with
    | some (glass_handle, tint_handle) =>
      let w := run_on_main_sync (fun _ =>
        let w₁ :=
          match tint_handle with
          | some tint => st.world.removeFromSuperview tint.as_id
          | none => st.world
        w₁.removeFromSuperview glass_handle.as_id)
      (.ok (), { world := w, registry := r })
    | none => (.ok (), { st with registry := r })

/-- glass_effect/mod.rs `set_liquid_glass_effect`: with `enabled`, update
when the registry already has the label and create otherwise; without
`enabled`, remove. -/
def set_liquid_glass_effect (env : PlatformEnv) (window : WindowRef)
    (config : LiquidGlassConfig) (st : SysState) : Except Error Unit × SysState :=
  if config.enabled then
    match st.registry.contains window.label with
    | (.error e, r) => (.error e, { st with registry := r })
    | (.ok existing, r) =>
      if existing then update_glass_effect env window config { st with registry := r }
      else create_glass_effect env window config { st with registry := r }
  else remove_glass_effect window.label st

/-- The claim's reading of the precondition: the remainder after stripping a
SINGLE leading '#' (the code instead strips every leading '#'). -/
def stripSingleLeadingHash (s : String) : List Char :=
  match s.toList with
  | '#' :: rest => rest
  | cs => cs


section AssocLemmas

variable {κ α : Type} [DecidableEq κ]

theorem assocGet_insert_self (l : List (κ × α)) (k : κ) (v : α) :
    assocGet (assocInsert l k v) k = some v := by
  induction l with
  | nil => simp [assocInsert, assocGet]
  | cons p rest ih =>
    obtain ⟨k', v'⟩ := p
    by_cases h : k' = k <;> simp [assocInsert, assocGet, h, ih]

theorem assocGet_insert_ne (l : List (κ × α)) (k k' : κ) (v : α) (h : k' ≠ k) :
    assocGet (assocInsert l k v) k' = assocGet l k' := by
  have hk : ¬(k = k') := fun hh => h hh.symm
  induction l with
  | nil => simp [assocInsert, assocGet, hk]
  | cons p rest ih =>
    obtain ⟨k₀, v₀⟩ := p
    by_cases h₀ : k₀ = k
    · subst h₀
      simp [assocInsert, assocGet, hk]
    · simp [assocInsert, assocGet, h₀, ih]

theorem assocGet_remove_ne (l : List (κ × α)) (k k' : κ) (h : k' ≠ k) :
    assocGet (assocRemove l k) k' = assocGet l k' := by
  have hk : ¬(k = k') := fun hh => h hh.symm
  induction l with
  | nil => simp [assocRemove]
  | cons p rest ih =>
    obtain ⟨k₀, v₀⟩ := p
    by_cases h₀ : k₀ = k
    · subst h₀
      simp [assocRemove, assocGet, hk]
    · simp [assocRemove, assocGet, h₀, ih]

theorem assocGet_none_of_countKey_zero (l : List (κ × α)) (k : κ)
    (h : countKey l k = 0) : assocGet l k = none := by
  induction l with
  | nil => simp [assocGet]
  | cons p rest ih =>
    obtain ⟨k₀, v₀⟩ := p
    by_cases h₀ : k₀ = k
    · simp [countKey, h₀] at h
    · simp [countKey, h₀] at h
      simp [assocGet, h₀, ih h]

theorem countKey_zero_of_assocGet_none (l : List (κ × α)) (k : κ)
    (h : assocGet l k = none) : countKey l k = 0 := by
  induction l with
  | nil => simp [countKey]
  | cons p rest ih =>
    obtain ⟨k₀, v₀⟩ := p
    by_cases h₀ : k₀ = k
    · simp [assocGet, h₀] at h
    · simp [assocGet, h₀] at h
      simp [countKey, h₀, ih h]

theorem assocRemove_of_absent (l : List (κ × α)) (k : κ)
    (h : assocGet l k = none) : assocRemove l k = l := by
  induction l with
  | nil => simp [assocRemove]
  | cons p rest ih =>
    obtain ⟨k₀, v₀⟩ := p
    by_cases h₀ : k₀ = k
    · simp [assocGet, h₀] at h
    · simp [assocGet, h₀] at h
      simp [assocRemove, h₀, ih h]

theorem assocGet_remove_self_of_nodup (l : List (κ × α)) (k : κ)
    (h : keysNodupB l = true) : assocGet (assocRemove l k) k = none := by
  induction l with
  | nil => simp [assocRemove, assocGet]
  | cons p rest ih =>
    obtain ⟨k₀, v₀⟩ := p
    simp [keysNodupB, Option.isNone_iff_eq_none, Bool.and_eq_true] at h
    by_cases h₀ : k₀ = k
    · subst h₀
      simpa [assocRemove] using h.1
    · simp [assocRemove, assocGet, h₀, ih h.2]

theorem keysNodupB_insert (l : List (κ × α)) (k : κ) (v : α)
    (h : keysNodupB l = true) : keysNodupB (assocInsert l k v) = true := by
  induction l with
  | nil => simp [assocInsert, keysNodupB, assocGet]
  | cons p rest ih =>
    obtain ⟨k₀, v₀⟩ := p
    simp [keysNodupB, Option.isNone_iff_eq_none, Bool.and_eq_true] at h
    by_cases h₀ : k₀ = k
    · subst h₀
      simp [assocInsert, keysNodupB, Option.isNone_iff_eq_none, h.1, h.2]
    · simp [assocInsert, h₀, keysNodupB, Option.isNone_iff_eq_none,
        Bool.and_eq_true]
      exact ⟨by rw [assocGet_insert_ne rest k k₀ v h₀]; exact h.1, ih h.2⟩

theorem keysNodupB_remove (l : List (κ × α)) (k : κ)
    (h : keysNodupB l = true) : keysNodupB (assocRemove l k) = true := by
  induction l with
  | nil => simp [assocRemove, keysNodupB]
  | cons p rest ih =>
    obtain ⟨k₀, v₀⟩ := p
    simp [keysNodupB, Option.isNone_iff_eq_none, Bool.and_eq_true] at h
    by_cases h₀ : k₀ = k
    · simpa [assocRemove, h₀] using h.2
    · simp [assocRemove, h₀, keysNodupB, Option.isNone_iff_eq_none,
        Bool.and_eq_true]
      exact ⟨by rw [assocGet_remove_ne rest k k₀ h₀]; exact h.1, ih h.2⟩

theorem countKey_insert_of_nodup (l : List (κ × α)) (k : κ) (v : α)
    (h : keysNodupB l = true) : countKey (assocInsert l k v) k = 1 := by
  induction l with
  | nil => simp [assocInsert, countKey]
  | cons p rest ih =>
    obtain ⟨k₀, v₀⟩ := p
    simp [keysNodupB, Option.isNone_iff_eq_none, Bool.and_eq_true] at h
    by_cases h₀ : k₀ = k
    · subst h₀
      simp [assocInsert, countKey, countKey_zero_of_assocGet_none rest k₀ h.1]
    · simp [assocInsert, h₀, countKey, ih h.2]

theorem countKey_one_of_present (l : List (κ × α)) (k : κ) (e : α)
    (hn : keysNodupB l = true) (h : assocGet l k = some e) :
    countKey l k = 1 := by
  induction l with
  | nil => simp [assocGet] at h
  | cons p rest ih =>
    obtain ⟨k₀, v₀⟩ := p
    simp [keysNodupB, Option.isNone_iff_eq_none, Bool.and_eq_true] at hn
    by_cases h₀ : k₀ = k
    · subst h₀
      simp [countKey, countKey_zero_of_assocGet_none rest k₀ hn.1]
    · simp [assocGet, h₀] at h
      simp [countKey, h₀, ih hn.2 h]

end AssocLemmas

-- ===========================================================================
-- Further association-list lemmas (update_tint, counting)
-- ===========================================================================

theorem assocUpdateTint_lookup_self (l : List (String × GlassViewEntry))
    (label : String) (tint : Option ViewHandle) :
    assocGet (assocUpdateTint l label tint) label =
      (assocGet l label).map (fun e => { e with tint_overlay := tint }) := by
  induction l with
  | nil => simp [assocUpdateTint, assocGet]
  | cons p rest ih =>
    obtain ⟨k, e⟩ := p
    by_cases hk : k = label
    · subst hk
      simp [assocUpdateTint, assocGet]
    · simp [assocUpdateTint, assocGet, hk, ih]

theorem assocUpdateTint_lookup_ne (l : List (String × GlassViewEntry))
    (label k' : String) (tint : Option ViewHandle) (h : k' ≠ label) :
    assocGet (assocUpdateTint l label tint) k' = assocGet l k' := by
  have hk : ¬(label = k') := fun hh => h hh.symm
  induction l with
  | nil => simp [assocUpdateTint]
  | cons p rest ih =>
    obtain ⟨k, e⟩ := p
    by_cases h₀ : k = label
    · subst h₀
      simp [assocUpdateTint, assocGet, hk]
    · simp [assocUpdateTint, assocGet, h₀, ih]

theorem assocUpdateTint_absent (l : List (String × GlassViewEntry))
    (label : String) (tint : Option ViewHandle)
    (h : assocGet l label = none) : assocUpdateTint l label tint = l := by
  induction l with
  | nil => simp [assocUpdateTint]
  | cons p rest ih =>
    obtain ⟨k, e⟩ := p
    by_cases h₀ : k = label
    · simp [assocGet, h₀] at h
    · simp [assocGet, h₀] at h
      simp [assocUpdateTint, h₀, ih h]

theorem countKey_updateTint (l : List (String × GlassViewEntry))
    (label k : String) (tint : Option ViewHandle) :
    countKey (assocUpdateTint l label tint) k = countKey l k := by
  induction l with
  | nil => simp [assocUpdateTint]
  | cons p rest ih =>
    obtain ⟨k₀, e⟩ := p
    by_cases h₀ : k₀ = label
    · subst h₀
      simp [assocUpdateTint, countKey]
    · simp [assocUpdateTint, countKey, h₀, ih]

theorem keysNodupB_updateTint (l : List (String × GlassViewEntry))
    (label : String) (tint : Option ViewHandle)
    (h : keysNodupB l = true) : keysNodupB (assocUpdateTint l label tint) = true := by
  induction l with
  | nil => simp [assocUpdateTint, keysNodupB]
  | cons p rest ih =>
    obtain ⟨k₀, e⟩ := p
    simp [keysNodupB, Option.isNone_iff_eq_none, Bool.and_eq_true] at h
    by_cases h₀ : k₀ = label
    · subst h₀
      simp [assocUpdateTint, keysNodupB, Option.isNone_iff_eq_none, h.1, h.2]
    · simp [assocUpdateTint, h₀, keysNodupB, Option.isNone_iff_eq_none,
        Bool.and_eq_true]
      refine ⟨?_, ih h.2⟩
      by_cases hk : k₀ = label
      · exact absurd hk h₀
      · rw [assocUpdateTint_lookup_ne rest label k₀ tint h₀]
        exact h.1

-- ===========================================================================
-- C10: ViewHandle round trip
-- ===========================================================================

/-- C10: `ViewHandle` is a round-trip-faithful opaque token: `new` then
`as_id` gives back the original pointer, `as_id` then `new` gives back the
same handle, and a handle carries no state besides the address — two handles
with the same address are the same value, so copying one can never affect
the underlying view. -/
theorem viewHandle_token_faithful :
    (∀ v : ObjcId, (ViewHandle.new v).as_id = v) ∧
    (∀ h : ViewHandle, ViewHandle.new h.as_id = h) ∧
    (∀ h₁ h₂ : ViewHandle, h₁.as_id = h₂.as_id → h₁ = h₂) := by
  refine ⟨fun v => rfl, fun h => rfl, fun h₁ h₂ hh => ?_⟩
  cases h₁
  cases h₂
  simpa [ViewHandle.as_id] using hh

/-- Witness for C10 at the concrete pointer 42. -/
theorem viewHandle_token_faithful_witness :
    (ViewHandle.new 42).as_id = 42 ∧ ViewHandle.new 42 = ViewHandle.new 42 :=
  ⟨viewHandle_token_faithful.1 42,
   viewHandle_token_faithful.2.2 (ViewHandle.new 42) (ViewHandle.new 42) (by decide)⟩

-- ===========================================================================
-- C2: isSupported requires OS version and class availability
-- ===========================================================================

/-- C2: the `isSupported` operation (commands.rs `is_glass_supported`, which
on macOS runs macos/glass_effect.rs `is_glass_supported`) returns true only
if both the minimum-OS-version requirement and the runtime availability of
the advanced glass-effect view class hold; if either condition fails it
returns false. -/
theorem isSupported_requires_version_and_class (env : PlatformEnv) :
    (commands_is_glass_supported env = true ↔
      (env.isMacOS26OrLater = true ∧ glass_class_available env = true)) ∧
    ((env.isMacOS26OrLater = false ∨ glass_class_available env = false) →
      commands_is_glass_supported env = false) := by
  constructor
  · simp [commands_is_glass_supported, macos_is_glass_supported, run_on_main_sync,
      Bool.and_eq_true]
  · rintro (h | h) <;>
      simp [commands_is_glass_supported, macos_is_glass_supported, run_on_main_sync, h]

/-- Witness for C2: a platform where the glass class is present but the OS
version requirement fails reports unsupported. -/
theorem isSupported_requires_version_and_class_witness :
    commands_is_glass_supported
      { glassClassAvailable := true, isMacOS26OrLater := false,
        respondsPrivateVariant := fun _ => false,
        respondsPublicVariant := fun _ => false } = false :=
  (isSupported_requires_version_and_class
    { glassClassAvailable := true, isMacOS26OrLater := false,
      respondsPrivateVariant := fun _ => false,
      respondsPublicVariant := fun _ => false }).2 (Or.inl rfl)

-- ===========================================================================
-- C8: poisoned lock surfaces RegistryLockFailed everywhere
-- ===========================================================================

/-- C8: when the registry mutex is poisoned, each of the five operations
(contains, insert, get, remove, update_tint) returns the
`RegistryLockFailed` error — rather than panicking, since each is a total
function into `Except` — and returns the registry exactly as it was: no
repair of the flag and no mutation of the map. -/
theorem registry_poisoned_all_ops_fail (r : GlassViewRegistry) (label : String)
    (gv : ViewHandle) (t tint : Option ViewHandle) (hp : r.poisoned = true) :
    r.contains label = (.error .RegistryLockFailed, r) ∧
    r.insert label gv t = (.error .RegistryLockFailed, r) ∧
    r.get label = (.error .RegistryLockFailed, r) ∧
    r.remove label = (.error .RegistryLockFailed, r) ∧
    r.update_tint label tint = (.error .RegistryLockFailed, r) := by
  refine ⟨?_, ?_, ?_, ?_, ?_⟩ <;>
    simp [GlassViewRegistry.contains, GlassViewRegistry.insert,
      GlassViewRegistry.get, GlassViewRegistry.remove,
      GlassViewRegistry.update_tint, hp]

/-- Witness for C8 on a concrete poisoned registry. -/
theorem registry_poisoned_all_ops_fail_witness :
    GlassViewRegistry.contains { poisoned := true, views := [] } "main" =
      (.error .RegistryLockFailed, { poisoned := true, views := [] }) ∧
    GlassViewRegistry.insert { poisoned := true, views := [] } "main" ⟨1⟩ none =
      (.error .RegistryLockFailed, { poisoned := true, views := [] }) ∧
    GlassViewRegistry.get { poisoned := true, views := [] } "main" =
      (.error .RegistryLockFailed, { poisoned := true, views := [] }) ∧
    GlassViewRegistry.remove { poisoned := true, views := [] } "main" =
      (.error .RegistryLockFailed, { poisoned := true, views := [] }) ∧
    GlassViewRegistry.update_tint { poisoned := true, views := [] } "main" none =
      (.error .RegistryLockFailed, { poisoned := true, views := [] }) :=
  registry_poisoned_all_ops_fail { poisoned := true, views := [] } "main" ⟨1⟩ none none rfl

-- ===========================================================================
-- C7: update_tint mutates only the overlay field of the addressed entry
-- ===========================================================================

/-- C7: with the lock healthy, `update_tint` on a present key succeeds and
rewrites only the `tint_overlay` field of that entry (the `glass_view`
handle is kept) while every other key's binding is untouched; on an absent
key it succeeds and returns the registry completely unchanged. -/
theorem update_tint_only_overlay (r : GlassViewRegistry) (label : String)
    (tint : Option ViewHandle) (hp : r.poisoned = false) :
    (∀ e, assocGet r.views label = some e →
      (r.update_tint label tint).1 = .ok () ∧
      (r.update_tint label tint).2.poisoned = false ∧
      assocGet (r.update_tint label tint).2.views label =
        some { e with tint_overlay := tint } ∧
      (∀ k, k ≠ label →
        assocGet (r.update_tint label tint).2.views k = assocGet r.views k)) ∧
    (assocGet r.views label = none → r.update_tint label tint = (.ok (), r)) := by
  constructor
  · intro e he
    refine ⟨?_, ?_, ?_, ?_⟩
    · simp [GlassViewRegistry.update_tint, hp]
    · simp [GlassViewRegistry.update_tint, hp]
    · simp [GlassViewRegistry.update_tint, hp, assocUpdateTint_lookup_self, he]
    · intro k hk
      simp [GlassViewRegistry.update_tint, hp, assocUpdateTint_lookup_ne _ _ _ _ hk]
  · intro he
    obtain ⟨p, vs⟩ := r
    simp only at hp he
    subst hp
    simp [GlassViewRegistry.update_tint, assocUpdateTint_absent _ _ _ he]

/-- Witness for C7: updating the overlay of a present entry on a concrete
registry. -/
theorem update_tint_only_overlay_witness :
    (GlassViewRegistry.update_tint
        { poisoned := false, views := [("main", ⟨⟨7⟩, none⟩), ("aux", ⟨⟨9⟩, none⟩)] }
        "main" (some ⟨11⟩)).1 = .ok () ∧
    assocGet (GlassViewRegistry.update_tint
        { poisoned := false, views := [("main", ⟨⟨7⟩, none⟩), ("aux", ⟨⟨9⟩, none⟩)] }
        "main" (some ⟨11⟩)).2.views "main" = some ⟨⟨7⟩, some ⟨11⟩⟩ ∧
    assocGet (GlassViewRegistry.update_tint
        { poisoned := false, views := [("main", ⟨⟨7⟩, none⟩), ("aux", ⟨⟨9⟩, none⟩)] }
        "main" (some ⟨11⟩)).2.views "aux" = some ⟨⟨9⟩, none⟩ := by
  have h := update_tint_only_overlay
    { poisoned := false, views := [("main", ⟨⟨7⟩, none⟩), ("aux", ⟨⟨9⟩, none⟩)] }
    "main" (some ⟨11⟩) rfl
  have h₁ := h.1 ⟨⟨7⟩, none⟩ (by decide)
  exact ⟨h₁.1, h₁.2.2.1, by
    have hx := h₁.2.2.2 "aux" (by decide)
    rw [hx]
    decide⟩

-- ===========================================================================
-- C4: remove is idempotent and a no-op on absent keys
-- ===========================================================================

/-- C4: with the lock healthy, removing a key that has no registry entry
returns `Ok` and leaves the whole state (registry and native view world)
unchanged; and — on any state whose registry keys are unique, the invariant
a HashMap maintains — removing the same key twice returns the same result
and final state as removing it once. -/
theorem remove_idempotent (label : String) (st : SysState) :
    (st.registry.poisoned = false → assocGet st.registry.views label = none →
      remove_glass_effect label st = (.ok (), st)) ∧
    (keysNodupB st.registry.views = true →
      remove_glass_effect label ((remove_glass_effect label st).2) =
        remove_glass_effect label st) := by
  constructor
  · intro hp he
    obtain ⟨w, p, vs⟩ := st
    simp only at hp he
    subst hp
    simp [remove_glass_effect, GlassViewRegistry.remove, he,
      assocRemove_of_absent _ _ he]
  · intro hn
    by_cases hp : st.registry.poisoned
    · simp [remove_glass_effect, GlassViewRegistry.remove, hp]
    · simp only [Bool.not_eq_true] at hp
      cases he : assocGet st.registry.views label with
      | none =>
        simp [remove_glass_effect, GlassViewRegistry.remove, hp, he,
          assocRemove_of_absent _ _ he]
      | some e =>
        have hrm : assocGet (assocRemove st.registry.views label) label = none :=
          assocGet_remove_self_of_nodup _ _ hn
        simp [remove_glass_effect, GlassViewRegistry.remove, hp, he, hrm,
          assocRemove_of_absent _ _ hrm, run_on_main_sync]

/-- Witness for C4: removing an absent key from a concrete healthy state is
the identity, and a double removal after one create equals a single one. -/
theorem remove_idempotent_witness :
    remove_glass_effect "gone"
      { world := {}, registry := { poisoned := false, views := [("main", ⟨⟨7⟩, none⟩)] } } =
      (.ok (),
       { world := {}, registry := { poisoned := false, views := [("main", ⟨⟨7⟩, none⟩)] } }) ∧
    remove_glass_effect "main" ((remove_glass_effect "main"
      { world := {}, registry := { poisoned := false, views := [("main", ⟨⟨7⟩, none⟩)] } }).2) =
      remove_glass_effect "main"
        { world := {}, registry := { poisoned := false, views := [("main", ⟨⟨7⟩, none⟩)] } } :=
  ⟨(remove_idempotent "gone"
      { world := {}, registry := { poisoned := false, views := [("main", ⟨⟨7⟩, none⟩)] } }).1
      rfl (by decide),
   (remove_idempotent "main"
      { world := {}, registry := { poisoned := false, views := [("main", ⟨⟨7⟩, none⟩)] } }).2
      (by decide)⟩

-- ===========================================================================
-- C3: hex color parsing
-- ===========================================================================

/-- C3, counterexample: the input "##FF0000" leaves the remainder "#FF0000"
of length 7 (neither 6 nor 8) after stripping a single leading '#', so the
claim says it parses to no color; but `color_from_hex` parses it to fully
opaque red, because `trim_start_matches('#')` strips every leading '#'. -/
theorem color_from_hex_single_hash_counterexample :
    (stripSingleLeadingHash "##FF0000").length ≠ 6 ∧
    (stripSingleLeadingHash "##FF0000").length ≠ 8 ∧
    color_from_hex "##FF0000" = some ⟨1, 0, 0, 1⟩ := by decide

/-- C3 (amended): `color_from_hex` parses "#FF000080" to red with alpha
128/255 and "#FF0000" to fully opaque red (alpha 1), and for every input
string whose remainder after trimming whitespace and stripping ALL leading
'#' characters has length different from 6 and from 8 (including
"not-a-color"), it returns no color. -/
theorem color_from_hex_amended :
    color_from_hex "#FF000080" = some ⟨1, 0, 0, mkRat 128 255⟩ ∧
    color_from_hex "#FF0000" = some ⟨1, 0, 0, 1⟩ ∧
    color_from_hex "not-a-color" = none ∧
    (∀ s : String,
      ((trimChars s.toList).dropWhile (fun c => c == '#')).length ≠ 6 →
      ((trimChars s.toList).dropWhile (fun c => c == '#')).length ≠ 8 →
      color_from_hex s = none) := by
  refine ⟨by decide, by decide, by decide, ?_⟩
  intro s h6 h8
  simp only [color_from_hex, colorFromHexChars]
  rw [if_pos ⟨h6, h8⟩]

/-- Witness for C3 (amended) at the concrete input "abcd" (length 4). -/
theorem color_from_hex_amended_witness : color_from_hex "abcd" = none :=
  color_from_hex_amended.2.2.2 "abcd" (by decide) (by decide)

-- ===========================================================================
-- C9: create failures leave the registry unchanged
-- ===========================================================================

/-- C9: when `create_glass_effect` fails — the native window cannot be
resolved (`WindowNotFound`) or the main-thread creation step fails (e.g.
`ViewCreationFailed` on a nil content view) — it returns that error, and in
the two named cases the whole state is untouched; moreover on every error
result whatsoever the registry is exactly what it was, so no entry is ever
inserted for the key by a failed create. -/
theorem create_error_registry_unchanged (env : PlatformEnv) (window : WindowRef)
    (config : LiquidGlassConfig) (st : SysState) :
    (window.ns_window = none →
      create_glass_effect env window config st =
        (.error (.WindowNotFound window.label), st)) ∧
    (∀ nsw, window.ns_window = some nsw → st.world.windowContentView nsw = 0 →
      create_glass_effect env window config st = (.error .ViewCreationFailed, st)) ∧
    (∀ e, (create_glass_effect env window config st).1 = .error e →
      (create_glass_effect env window config st).2.registry = st.registry) := by
  refine ⟨?_, ?_, ?_⟩
  · intro h
    obtain ⟨w, reg⟩ := st
    simp [create_glass_effect, h]
  · intro nsw hns hcv
    obtain ⟨w, reg⟩ := st
    simp only at hcv
    simp [create_glass_effect, hns, run_on_main_sync, create_and_attach_glass_view,
      ViewHandle.new, ViewHandle.as_id, hcv]
  · intro e he
    cases hw : window.ns_window with
    | none => simp [create_glass_effect, hw]
    | some nsw =>
      simp only [create_glass_effect, hw, run_on_main_sync] at he ⊢
      rcases hr : create_and_attach_glass_view env (ViewHandle.new nsw) config st.world
        with ⟨res, w⟩
      cases res with
      | error e' => simp
      | ok pr =>
        obtain ⟨gv, t⟩ := pr
        rw [hr] at he
        by_cases hp : st.registry.poisoned
        · simp [GlassViewRegistry.insert, hp]
        · simp [GlassViewRegistry.insert, hp] at he

/-- Witness for C9: on a concrete state, an unresolvable window and a nil
content view each fail and leave the state intact. -/
theorem create_error_registry_unchanged_witness :
    create_glass_effect
      { glassClassAvailable := false, isMacOS26OrLater := false,
        respondsPrivateVariant := fun _ => false,
        respondsPublicVariant := fun _ => false }
      { label := "main", ns_window := none } {}
      { world := {}, registry := {} } =
      (.error (.WindowNotFound "main"), { world := {}, registry := {} }) ∧
    create_glass_effect
      { glassClassAvailable := false, isMacOS26OrLater := false,
        respondsPrivateVariant := fun _ => false,
        respondsPublicVariant := fun _ => false }
      { label := "main", ns_window := some 5 } {}
      { world := {}, registry := {} } =
      (.error .ViewCreationFailed, { world := {}, registry := {} }) :=
  ⟨(create_error_registry_unchanged _ _ _ _).1 rfl,
   (create_error_registry_unchanged _ _ _ _).2.1 5 rfl (by decide)⟩

-- ===========================================================================
-- C5: invalid tint strings clear the tint instead of erroring
-- ===========================================================================

/-- C5: when the config carries a tint string that `color_from_hex` cannot
parse, `apply_glass_config` takes the clear-tint path: it returns no overlay
handle and hands the state to the backend's `clear_tint` (then `set_variant`),
which is exactly what it does for a config with no tint at all; consequently
an update with such a config succeeds (no `InvalidColorFormat` error) and
stores `none` as the entry's overlay handle. -/
theorem invalid_tint_clears (env : PlatformEnv) (config : LiquidGlassConfig)
    (s : String) (hs : config.tint_color = some s) (hc : color_from_hex s = none) :
    (∀ (h : ViewHandle) (existing : Option ViewHandle) (w : World),
      apply_glass_config env h config existing w =
        ((none : Option ViewHandle),
         (get_backend env).set_variant env h.as_id config.variant.toI64
           ((get_backend env).clear_tint h.as_id existing
             (apply_corner_radius h.as_id config.corner_radius w).2)) ∧
      apply_glass_config env h config existing w =
        apply_glass_config env h { config with tint_color := none } existing w) ∧
    (∀ (window : WindowRef) (st : SysState) (glass : ViewHandle)
        (tint : Option ViewHandle),
      st.registry.poisoned = false →
      assocGet st.registry.views window.label = some ⟨glass, tint⟩ →
      (update_glass_effect env window config st).1 = .ok () ∧
      assocGet (update_glass_effect env window config st).2.registry.views
        window.label = some ⟨glass, none⟩) := by
  have key : ∀ (h : ViewHandle) (existing : Option ViewHandle) (w : World),
      apply_glass_config env h config existing w =
        ((none : Option ViewHandle),
         (get_backend env).set_variant env h.as_id config.variant.toI64
           ((get_backend env).clear_tint h.as_id existing
             (apply_corner_radius h.as_id config.corner_radius w).2)) := by
    intro h existing w
    rcases hac : apply_corner_radius h.as_id config.corner_radius w with ⟨layer, w₁⟩
    simp [apply_glass_config, hs, hc, hac]
  constructor
  · intro h existing w
    refine ⟨key h existing w, ?_⟩
    rw [key h existing w]
    rcases hac : apply_corner_radius h.as_id config.corner_radius w with ⟨layer, w₁⟩
    simp [apply_glass_config, hac]
  · intro window st glass tint hp he
    obtain ⟨w0, p, vs⟩ := st
    simp only at hp he
    subst hp
    rcases hag : apply_glass_config env glass config tint w0 with ⟨nt, w'⟩
    have hnt : nt = none := by
      have hk := key glass tint w0
      rw [hag] at hk
      exact congrArg Prod.fst hk
    subst hnt
    simp [update_glass_effect, GlassViewRegistry.get, he, run_on_main_sync, hag,
      GlassViewRegistry.update_tint, assocUpdateTint_lookup_self]

/-- Witness for C5: updating a present entry with the unparseable tint
string "zzz" succeeds and stores no overlay handle. -/
theorem invalid_tint_clears_witness :
    (update_glass_effect
      { glassClassAvailable := false, isMacOS26OrLater := false,
        respondsPrivateVariant := fun _ => false,
        respondsPublicVariant := fun _ => false }
      { label := "main", ns_window := some 100 }
      { tint_color := some "zzz" }
      { world := {},
        registry := { poisoned := false, views := [("main", ⟨⟨7⟩, none⟩)] } }).1 =
      .ok () ∧
    assocGet (update_glass_effect
      { glassClassAvailable := false, isMacOS26OrLater := false,
        respondsPrivateVariant := fun _ => false,
        respondsPublicVariant := fun _ => false }
      { label := "main", ns_window := some 100 }
      { tint_color := some "zzz" }
      { world := {},
        registry := { poisoned := false, views := [("main", ⟨⟨7⟩, none⟩)] } }).2.registry.views
      "main" = some ⟨⟨7⟩, none⟩ :=
  (invalid_tint_clears
    { glassClassAvailable := false, isMacOS26OrLater := false,
      respondsPrivateVariant := fun _ => false,
      respondsPublicVariant := fun _ => false }
    { tint_color := some "zzz" } "zzz" rfl (by decide)).2
    { label := "main", ns_window := some 100 }
    { world := {},
      registry := { poisoned := false, views := [("main", ⟨⟨7⟩, none⟩)] } }
    ⟨7⟩ none rfl (by decide)

-- ===========================================================================
-- Helper lemmas about the world operations (for C6)
-- ===========================================================================

theorem assocGet_mem {κ α : Type} [DecidableEq κ] (l : List (κ × α)) (k : κ)
    (v : α) (h : assocGet l k = some v) : (k, v) ∈ l := by
  induction l with
  | nil => simp [assocGet] at h
  | cons p rest ih =>
    obtain ⟨k₀, v₀⟩ := p
    by_cases h₀ : k₀ = k
    · subst h₀
      simp [assocGet] at h
      simp [h]
    · simp [assocGet, h₀] at h
      simp [ih h]

theorem assocGet_none_of_ge {α : Type} (l : List (Nat × α)) (n m : Nat)
    (hlt : ∀ p ∈ l, p.1 < n) (h : n ≤ m) : assocGet l m = none := by
  induction l with
  | nil => rfl
  | cons p rest ih =>
    obtain ⟨k, v⟩ := p
    have hk : k < n := hlt (k, v) (by simp)
    have : ¬(k = m) := by omega
    simp only [assocGet, if_neg this]
    exact ih (fun q hq => hlt q (by simp [hq]))

theorem assocInsert_insert_same {κ α : Type} [DecidableEq κ]
    (l : List (κ × α)) (k : κ) (a b : α) :
    assocInsert (assocInsert l k a) k b = assocInsert l k b := by
  induction l with
  | nil => simp [assocInsert]
  | cons p rest ih =>
    obtain ⟨k₀, v₀⟩ := p
    by_cases h₀ : k₀ = k
    · subst h₀
      simp [assocInsert]
    · simp [assocInsert, h₀, ih]

theorem views_setLayerBg (w : World) (l : ObjcId) (c : Option NSColor) :
    (w.setLayerBackgroundColor l c).views = w.views := by
  simp only [World.setLayerBackgroundColor]
  split
  · rfl
  · cases assocGet w.layers l <;> rfl

theorem views_setLayerRadius (w : World) (l : ObjcId) (r : CGFloat) :
    (w.setLayerCornerRadius l r).views = w.views := by
  simp only [World.setLayerCornerRadius]
  split
  · rfl
  · cases assocGet w.layers l <;> rfl

theorem views_setLayerMasks (w : World) (l : ObjcId) (b : Bool) :
    (w.setLayerMasksToBounds l b).views = w.views := by
  simp only [World.setLayerMasksToBounds]
  split
  · rfl
  · cases assocGet w.layers l <;> rfl

theorem viewLayerId_of_views_eq (w w' : World) (h : w'.views = w.views)
    (i : ObjcId) : w'.viewLayerId i = w.viewLayerId i := by
  simp [World.viewLayerId, World.getView, h]

theorem layerRadius_setLayerBg (w : World) (l : ObjcId) (c : Option NSColor)
    (l' : ObjcId) :
    (w.setLayerBackgroundColor l c).layerCornerRadius l' = w.layerCornerRadius l' := by
  simp only [World.setLayerBackgroundColor]
  split
  · rfl
  · cases hL : assocGet w.layers l with
    | none => rfl
    | some L =>
      by_cases h : l' = l
      · subst h
        simp [World.layerCornerRadius, assocGet_insert_self, hL]
      · simp [World.layerCornerRadius, assocGet_insert_ne _ _ _ _ h]

theorem layerRadius_setLayerMasks (w : World) (l : ObjcId) (b : Bool)
    (l' : ObjcId) :
    (w.setLayerMasksToBounds l b).layerCornerRadius l' = w.layerCornerRadius l' := by
  simp only [World.setLayerMasksToBounds]
  split
  · rfl
  · cases hL : assocGet w.layers l with
    | none => rfl
    | some L =>
      by_cases h : l' = l
      · subst h
        simp [World.layerCornerRadius, assocGet_insert_self, hL]
      · simp [World.layerCornerRadius, assocGet_insert_ne _ _ _ _ h]

theorem layerRadius_setRadius_self (w : World) (l : ObjcId) (r : CGFloat)
    (hlz : l ≠ 0) (hL : (assocGet w.layers l).isSome = true) :
    (w.setLayerCornerRadius l r).layerCornerRadius l = r := by
  simp only [World.setLayerCornerRadius]
  rw [if_neg hlz]
  cases hL2 : assocGet w.layers l with
  | none => rw [hL2] at hL; simp at hL
  | some L => simp [World.layerCornerRadius, assocGet_insert_self]

theorem layerRadius_setRadius_ne (w : World) (l : ObjcId) (r : CGFloat)
    (l' : ObjcId) (h : l' ≠ l) :
    (w.setLayerCornerRadius l r).layerCornerRadius l' = w.layerCornerRadius l' := by
  simp only [World.setLayerCornerRadius]
  split
  · rfl
  · cases hL : assocGet w.layers l with
    | none => rfl
    | some L => simp [World.layerCornerRadius, assocGet_insert_ne _ _ _ _ h]

theorem layersIsSome_setLayerBg (w : World) (l : ObjcId) (c : Option NSColor)
    (l' : ObjcId) :
    (assocGet (w.setLayerBackgroundColor l c).layers l').isSome =
      (assocGet w.layers l').isSome := by
  simp only [World.setLayerBackgroundColor]
  split
  · rfl
  · cases hL : assocGet w.layers l with
    | none => rfl
    | some L =>
      by_cases h : l' = l
      · subst h
        simp [assocGet_insert_self, hL]
      · simp [assocGet_insert_ne _ _ _ _ h]

theorem getView_ne_zero (w : World) (i : ObjcId) (v : NSView)
    (h : w.getView i = some v) : i ≠ 0 := by
  intro hi
  subst hi
  simp [World.getView] at h

theorem layers_addSubview (w : World) (p c : ObjcId) :
    (w.addSubview p c).layers = w.layers := by
  simp only [World.addSubview]
  cases w.getView p <;> rfl

theorem viewLayerId_addSubview (w : World) (p c i : ObjcId) :
    (w.addSubview p c).viewLayerId i = w.viewLayerId i := by
  simp only [World.addSubview]
  cases hv : w.getView p with
  | none => rfl
  | some v =>
    have hp0 : p ≠ 0 := getView_ne_zero w p v hv
    by_cases h : i = p
    · subst h
      simp [World.viewLayerId, World.getView, World.setView, hp0,
        assocGet_insert_self, hv]
      simp [World.getView, hp0] at hv
      simp [hv]
    · simp only [World.viewLayerId, World.getView, World.setView]
      by_cases hi0 : i = 0
      · simp [hi0]
      · simp [hi0, assocGet_insert_ne _ _ _ _ h]

/-- What the fallback's overlay-creation block produces: the fresh overlay id
(`nextId`), backed by the fresh layer `nextId + 1`; the layer table gains
exactly that default layer, and no already layer-backed view changes its
backing layer. -/
theorem createOverlay_spec (view : ObjcId) (w : World)
    (hvlt : ∀ p ∈ w.views, p.1 < w.nextId) (hpos : 0 < w.nextId) :
    (createOverlay view w).1 = w.nextId ∧
    (createOverlay view w).2.viewLayerId w.nextId = w.nextId + 1 ∧
    (createOverlay view w).2.layers = assocInsert w.layers (w.nextId + 1) {} ∧
    (∀ i, w.viewLayerId i ≠ 0 →
      (createOverlay view w).2.viewLayerId i = w.viewLayerId i) := by
  have hn0 : ¬(w.nextId = 0) := Nat.pos_iff_ne_zero.mp hpos
  have hred : createOverlay view w =
      (w.nextId,
       ({ w with
            views := assocInsert w.views w.nextId
              { cls := .plainView, frame := w.viewBounds view,
                autoresizingMask := autoresize_mask, wantsLayer := true,
                layer := w.nextId + 1 },
            layers := assocInsert w.layers (w.nextId + 1) {},
            nextId := w.nextId + 2 }).addSubview view w.nextId) := by
    simp [createOverlay, World.allocView, World.setViewAutoresizingMask,
      World.setWantsLayer, World.allocLayer, World.setView, World.getView,
      hn0, assocGet_insert_self, assocInsert_insert_same]
  refine ⟨by rw [hred], ?_, ?_, ?_⟩
  · rw [hred]
    simp only [viewLayerId_addSubview]
    simp [World.viewLayerId, World.getView, hn0, assocGet_insert_self]
  · rw [hred]
    simp only [layers_addSubview]
  · intro i hi
    rw [hred]
    simp only [viewLayerId_addSubview]
    cases hv : w.getView i with
    | none =>
      simp [World.viewLayerId, hv] at hi
    | some vi =>
      have hi0 : i ≠ 0 := getView_ne_zero w i vi hv
      have hvv : assocGet w.views i = some vi := by
        simpa [World.getView, hi0] using hv
      have hmem : i < w.nextId := hvlt _ (assocGet_mem _ _ _ hvv)
      have hine : i ≠ w.nextId := Nat.ne_of_lt hmem
      simp [World.viewLayerId, World.getView, hi0,
        assocGet_insert_ne _ _ _ _ hine, hvv]

theorem assocInsert_keyLt {α : Type} (l : List (Nat × α)) (k m : Nat) (v : α)
    (hl : ∀ p ∈ l, p.1 < m) (hk : k < m) :
    ∀ p ∈ assocInsert l k v, p.1 < m := by
  induction l with
  | nil =>
    intro p hp
    simp [assocInsert] at hp
    simp [hp, hk]
  | cons q rest ih =>
    obtain ⟨k₀, v₀⟩ := q
    intro p hp
    by_cases h₀ : k₀ = k
    · subst h₀
      simp [assocInsert] at hp
      rcases hp with hp | hp
      · simp [hp, hk]
      · exact hl p (by simp [hp])
    · simp [assocInsert, h₀] at hp
      rcases hp with hp | hp
      · exact hl p (by simp [hp])
      · exact ih (fun q hq => hl q (by simp [hq])) p hp

theorem layersIsSome_setLayerRadius (w : World) (l : ObjcId) (r : CGFloat)
    (l' : ObjcId) :
    (assocGet (w.setLayerCornerRadius l r).layers l').isSome =
      (assocGet w.layers l').isSome := by
  simp only [World.setLayerCornerRadius]
  split
  · rfl
  · cases hL : assocGet w.layers l with
    | none => rfl
    | some L =>
      by_cases h : l' = l
      · subst h
        simp [assocGet_insert_self, hL]
      · simp [assocGet_insert_ne _ _ _ _ h]

theorem layersIsSome_setLayerMasks (w : World) (l : ObjcId) (b : Bool)
    (l' : ObjcId) :
    (assocGet (w.setLayerMasksToBounds l b).layers l').isSome =
      (assocGet w.layers l').isSome := by
  simp only [World.setLayerMasksToBounds]
  split
  · rfl
  · cases hL : assocGet w.layers l with
    | none => rfl
    | some L =>
      by_cases h : l' = l
      · subst h
        simp [assocGet_insert_self, hL]
      · simp [assocGet_insert_ne _ _ _ _ h]

theorem keyLt_setLayerRadius (w : World) (l : ObjcId) (r : CGFloat) (m : Nat)
    (hl : ∀ p ∈ w.layers, p.1 < m) :
    ∀ p ∈ (w.setLayerCornerRadius l r).layers, p.1 < m := by
  simp only [World.setLayerCornerRadius]
  split
  · exact hl
  · cases hL : assocGet w.layers l with
    | none => exact hl
    | some L =>
      exact assocInsert_keyLt _ _ _ _ hl (hl _ (assocGet_mem _ _ _ hL))

theorem keyLt_setLayerMasks (w : World) (l : ObjcId) (b : Bool) (m : Nat)
    (hl : ∀ p ∈ w.layers, p.1 < m) :
    ∀ p ∈ (w.setLayerMasksToBounds l b).layers, p.1 < m := by
  simp only [World.setLayerMasksToBounds]
  split
  · exact hl
  · cases hL : assocGet w.layers l with
    | none => exact hl
    | some L =>
      exact assocInsert_keyLt _ _ _ _ hl (hl _ (assocGet_mem _ _ _ hL))

theorem nextId_setLayerRadius (w : World) (l : ObjcId) (r : CGFloat) :
    (w.setLayerCornerRadius l r).nextId = w.nextId := by
  simp only [World.setLayerCornerRadius]
  split
  · rfl
  · cases assocGet w.layers l <;> rfl

theorem nextId_setLayerMasks (w : World) (l : ObjcId) (b : Bool) :
    (w.setLayerMasksToBounds l b).nextId = w.nextId := by
  simp only [World.setLayerMasksToBounds]
  split
  · rfl
  · cases assocGet w.layers l <;> rfl

/-- What the first stage of `apply_glass_config` establishes: the glass view
ends up layer backed, its layer carries the configured corner radius, heap
bounds stay intact, no other layer-backed view changes its backing layer,
and no layer disappears from the layer table. -/
theorem apply_corner_radius_spec (glass : ObjcId) (r : CGFloat) (w : World)
    (gv : NSView) (hv : w.getView glass = some gv)
    (hcoh : gv.layer = 0 ∨ (assocGet w.layers gv.layer).isSome = true)
    (hvlt : ∀ p ∈ w.views, p.1 < w.nextId)
    (hllt : ∀ p ∈ w.layers, p.1 < w.nextId)
    (hpos : 0 < w.nextId) :
    (apply_corner_radius glass r w).1 ≠ 0 ∧
    (apply_corner_radius glass r w).2.layerCornerRadius
      (apply_corner_radius glass r w).1 = r ∧
    (assocGet (apply_corner_radius glass r w).2.layers
      (apply_corner_radius glass r w).1).isSome = true ∧
    (apply_corner_radius glass r w).2.viewLayerId glass =
      (apply_corner_radius glass r w).1 ∧
    (∀ p ∈ (apply_corner_radius glass r w).2.views,
      p.1 < (apply_corner_radius glass r w).2.nextId) ∧
    (∀ p ∈ (apply_corner_radius glass r w).2.layers,
      p.1 < (apply_corner_radius glass r w).2.nextId) ∧
    0 < (apply_corner_radius glass r w).2.nextId ∧
    (∀ i, w.viewLayerId i ≠ 0 →
      (apply_corner_radius glass r w).2.viewLayerId i = w.viewLayerId i) ∧
    (∀ l, (assocGet w.layers l).isSome = true →
      (assocGet (apply_corner_radius glass r w).2.layers l).isSome = true) := by
  have hg0 : glass ≠ 0 := getView_ne_zero w glass gv hv
  have hvv : assocGet w.views glass = some gv := by
    simpa [World.getView, hg0] using hv
  have hglt : glass < w.nextId := hvlt _ (assocGet_mem _ _ _ hvv)
  by_cases hgl : gv.layer = 0
  · -- the view was not layer backed: `setWantsLayer` materializes a layer
    have hn0 : w.nextId ≠ 0 := Nat.pos_iff_ne_zero.mp hpos
    have hred : apply_corner_radius glass r w =
        (w.nextId,
         (({ w with
              views := assocInsert w.views glass
                { gv with wantsLayer := true, layer := w.nextId },
              layers := assocInsert w.layers w.nextId {},
              nextId := w.nextId + 1 } : World).setLayerCornerRadius w.nextId
            r).setLayerMasksToBounds w.nextId true) := by
      simp [apply_corner_radius, World.setWantsLayer, hv, hvv, hgl,
        World.allocLayer, World.setView, World.viewLayerId, World.getView,
        hg0, hn0, assocGet_insert_self]
    set wset : World :=
      { w with
          views := assocInsert w.views glass
            { gv with wantsLayer := true, layer := w.nextId },
          layers := assocInsert w.layers w.nextId {},
          nextId := w.nextId + 1 } with hwset
    have hsetsome : (assocGet wset.layers w.nextId).isSome = true := by
      simp [hwset, assocGet_insert_self]
    rw [hred]
    refine ⟨hn0, ?_, ?_, ?_, ?_, ?_, ?_, ?_, ?_⟩
    · rw [layerRadius_setLayerMasks, layerRadius_setRadius_self _ _ _ hn0 hsetsome]
    · rw [layersIsSome_setLayerMasks, layersIsSome_setLayerRadius]
      exact hsetsome
    · have hviews : ((wset.setLayerCornerRadius w.nextId r).setLayerMasksToBounds
          w.nextId true).views = wset.views := by
        rw [views_setLayerMasks, views_setLayerRadius]
      rw [viewLayerId_of_views_eq wset _ hviews]
      simp [hwset, World.viewLayerId, World.getView, hg0, assocGet_insert_self]
    · intro p hp
      rw [views_setLayerMasks, views_setLayerRadius] at hp
      rw [nextId_setLayerMasks, nextId_setLayerRadius]
      simp only [hwset] at hp ⊢
      exact assocInsert_keyLt _ _ _ _
        (fun q hq => Nat.lt_succ_of_lt (hvlt q hq)) (Nat.lt_succ_of_lt hglt) p hp
    · intro p hp
      rw [nextId_setLayerMasks, nextId_setLayerRadius]
      refine keyLt_setLayerMasks _ _ _ _ (keyLt_setLayerRadius _ _ _ _ ?_) p hp
      simp only [hwset]
      exact assocInsert_keyLt _ _ _ _
        (fun q hq => Nat.lt_succ_of_lt (hllt q hq)) (Nat.lt_succ_self _)
    · rw [nextId_setLayerMasks, nextId_setLayerRadius]
      simp only [hwset]
      exact Nat.succ_pos _
    · intro i hi
      have hviews : ((wset.setLayerCornerRadius w.nextId r).setLayerMasksToBounds
          w.nextId true).views = wset.views := by
        rw [views_setLayerMasks, views_setLayerRadius]
      rw [viewLayerId_of_views_eq wset _ hviews]
      have hig : i ≠ glass := by
        intro hh
        subst hh
        rw [World.viewLayerId, hv] at hi
        exact hi hgl
      by_cases hi0 : i = 0
      · subst hi0
        simp [World.viewLayerId, World.getView] at hi
      · simp [hwset, World.viewLayerId, World.getView, hi0,
          assocGet_insert_ne _ _ _ _ hig]
    · intro l hl
      rw [layersIsSome_setLayerMasks, layersIsSome_setLayerRadius]
      obtain ⟨L, hL⟩ := Option.isSome_iff_exists.mp hl
      have hlne : l ≠ w.nextId := Nat.ne_of_lt (hllt _ (assocGet_mem _ _ _ hL))
      simp [hwset, assocGet_insert_ne _ _ _ _ hlne, hL]
  · -- the view already had a backing layer
    have hsome : (assocGet w.layers gv.layer).isSome = true := hcoh.resolve_left hgl
    have hred : apply_corner_radius glass r w =
        (gv.layer,
         ((({ w with
              views := assocInsert w.views glass { gv with wantsLayer := true } }
            : World).setLayerCornerRadius gv.layer r).setLayerMasksToBounds
           gv.layer true)) := by
      simp [apply_corner_radius, World.setWantsLayer, hv, hvv, hgl,
        World.setView, World.viewLayerId, World.getView, hg0,
        assocGet_insert_self]
    set wset : World :=
      { w with
          views := assocInsert w.views glass { gv with wantsLayer := true } }
      with hwset
    have hsetsome : (assocGet wset.layers gv.layer).isSome = true := hsome
    rw [hred]
    refine ⟨hgl, ?_, ?_, ?_, ?_, ?_, ?_, ?_, ?_⟩
    · rw [layerRadius_setLayerMasks, layerRadius_setRadius_self _ _ _ hgl hsetsome]
    · rw [layersIsSome_setLayerMasks, layersIsSome_setLayerRadius]
      exact hsetsome
    · have hviews : ((wset.setLayerCornerRadius gv.layer r).setLayerMasksToBounds
          gv.layer true).views = wset.views := by
        rw [views_setLayerMasks, views_setLayerRadius]
      rw [viewLayerId_of_views_eq wset _ hviews]
      simp [hwset, World.viewLayerId, World.getView, hg0, assocGet_insert_self]
    · intro p hp
      rw [views_setLayerMasks, views_setLayerRadius] at hp
      rw [nextId_setLayerMasks, nextId_setLayerRadius]
      simp only [hwset] at hp ⊢
      exact assocInsert_keyLt _ _ _ _ hvlt hglt p hp
    · intro p hp
      rw [nextId_setLayerMasks, nextId_setLayerRadius]
      refine keyLt_setLayerMasks _ _ _ _ (keyLt_setLayerRadius _ _ _ _ ?_) p hp
      simp only [hwset]
      exact hllt
    · rw [nextId_setLayerMasks, nextId_setLayerRadius]
      exact hpos
    · intro i hi
      have hviews : ((wset.setLayerCornerRadius gv.layer r).setLayerMasksToBounds
          gv.layer true).views = wset.views := by
        rw [views_setLayerMasks, views_setLayerRadius]
      rw [viewLayerId_of_views_eq wset _ hviews]
      by_cases hig : i = glass
      · subst hig
        simp [hwset, World.viewLayerId, World.getView, hg0,
          assocGet_insert_self, hvv]
      · by_cases hi0 : i = 0
        · subst hi0
          simp [World.viewLayerId, World.getView] at hi
        · simp [hwset, World.viewLayerId, World.getView, hi0,
            assocGet_insert_ne _ _ _ _ hig]
    · intro l hl
      rw [layersIsSome_setLayerMasks, layersIsSome_setLayerRadius]
      exact hl

/-- Core of C6: whenever the fallback backend's `apply_tint` creates or
reuses a tint overlay, the overlay ends up with a backing layer whose corner
radius equals the (pre-call, hence also post-call) corner radius of the
primary glass view's layer; the call never changes which backing layer any
already layer-backed view has. -/
theorem apply_tint_fallback_spec (w : World) (view layerId : ObjcId)
    (color : NSColor) (existing : Option ViewHandle) (Lay : CALayer)
    (hlz : layerId ≠ 0) (hL : assocGet w.layers layerId = some Lay)
    (hvlt : ∀ p ∈ w.views, p.1 < w.nextId)
    (hllt : ∀ p ∈ w.layers, p.1 < w.nextId)
    (hpos : 0 < w.nextId)
    (hex : ∀ hnd, existing = some hnd → w.viewLayerId hnd.as_id ≠ 0 ∧
      (assocGet w.layers (w.viewLayerId hnd.as_id)).isSome = true) :
    ∃ o : ViewHandle,
      (Backend.visualEffect.apply_tint view layerId color existing w).1 = some o ∧
      ((Backend.visualEffect.apply_tint view layerId color existing w).2.viewLayerId
          o.as_id ≠ 0 ∧
       (Backend.visualEffect.apply_tint view layerId color existing w).2.layerCornerRadius
         ((Backend.visualEffect.apply_tint view layerId color existing w).2.viewLayerId
           o.as_id) = Lay.cornerRadius ∧
       (Backend.visualEffect.apply_tint view layerId color existing w).2.layerCornerRadius
         layerId = Lay.cornerRadius) ∧
      (∀ i, w.viewLayerId i ≠ 0 →
        (Backend.visualEffect.apply_tint view layerId color existing w).2.viewLayerId i =
          w.viewLayerId i) := by
  have hradW : w.layerCornerRadius layerId = Lay.cornerRadius := by
    simp [World.layerCornerRadius, hL]
  cases existing with
  | some hnd =>
    obtain ⟨holz, hols⟩ := hex hnd rfl
    refine ⟨ViewHandle.new hnd.as_id, ?_⟩
    have hred : Backend.visualEffect.apply_tint view layerId color (some hnd) w =
        (some (ViewHandle.new hnd.as_id),
         ((w.setLayerBackgroundColor (w.viewLayerId hnd.as_id)
             (some color)).setLayerCornerRadius (w.viewLayerId hnd.as_id)
            ((w.setLayerBackgroundColor (w.viewLayerId hnd.as_id)
               (some color)).layerCornerRadius layerId)).setLayerMasksToBounds
           (w.viewLayerId hnd.as_id) true) := by
      simp only [Backend.apply_tint]
      rw [if_pos holz, if_pos hlz]
    rw [hred]
    set ol := w.viewLayerId hnd.as_id with hol
    set we := w.setLayerBackgroundColor ol (some color) with hwe
    set radius := we.layerCornerRadius layerId with hradius
    set W2 := (we.setLayerCornerRadius ol radius).setLayerMasksToBounds ol true with hW2
    have hviews : W2.views = w.views := by
      rw [hW2, views_setLayerMasks, views_setLayerRadius, hwe, views_setLayerBg]
    have hvli : ∀ i, W2.viewLayerId i = w.viewLayerId i :=
      fun i => viewLayerId_of_views_eq w W2 hviews i
    have hradval : radius = Lay.cornerRadius := by
      rw [hradius, hwe, layerRadius_setLayerBg, hradW]
    have hself : W2.layerCornerRadius ol = Lay.cornerRadius := by
      rw [hW2, layerRadius_setLayerMasks, layerRadius_setRadius_self _ _ _ holz, hradval]
      rw [hwe, layersIsSome_setLayerBg]
      exact hols
    refine ⟨rfl, ⟨?_, ?_, ?_⟩, fun i _ => hvli i⟩
    · rw [hvli]
      exact holz
    · rw [hvli]
      exact hself
    · by_cases hq : layerId = ol
      · rw [hq]
        exact hself
      · rw [hW2, layerRadius_setLayerMasks, layerRadius_setRadius_ne _ _ _ _ hq,
          hwe, layerRadius_setLayerBg, hradW]
  | none =>
    have hlid_lt : layerId < w.nextId := hllt _ (assocGet_mem _ _ _ hL)
    have hlidne : layerId ≠ w.nextId + 1 := Nat.ne_of_lt (Nat.lt_succ_of_lt hlid_lt)
    have hn10 : w.nextId + 1 ≠ 0 := Nat.succ_ne_zero _
    obtain ⟨ho1, ho2, ho3, ho4⟩ := createOverlay_spec view w hvlt hpos
    rcases hco : createOverlay view w with ⟨o, wd⟩
    rw [hco] at ho1 ho2 ho3 ho4
    simp only at ho1 ho2 ho3 ho4
    subst ho1
    refine ⟨ViewHandle.new w.nextId, ?_⟩
    have hred : Backend.visualEffect.apply_tint view layerId color none w =
        (some (ViewHandle.new w.nextId),
         ((wd.setLayerBackgroundColor (w.nextId + 1)
             (some color)).setLayerCornerRadius (w.nextId + 1)
            ((wd.setLayerBackgroundColor (w.nextId + 1)
               (some color)).layerCornerRadius layerId)).setLayerMasksToBounds
           (w.nextId + 1) true) := by
      simp only [Backend.apply_tint]
      rw [hco]
      simp only [ho2]
      rw [if_pos hn10, if_pos hlz]
    rw [hred]
    set we := wd.setLayerBackgroundColor (w.nextId + 1) (some color) with hwe
    set radius := we.layerCornerRadius layerId with hradius
    set W2 := (we.setLayerCornerRadius (w.nextId + 1) radius).setLayerMasksToBounds
      (w.nextId + 1) true with hW2
    have hviews : W2.views = wd.views := by
      rw [hW2, views_setLayerMasks, views_setLayerRadius, hwe, views_setLayerBg]
    have hvli : ∀ i, W2.viewLayerId i = wd.viewLayerId i :=
      fun i => viewLayerId_of_views_eq wd W2 hviews i
    have hradwd : wd.layerCornerRadius layerId = Lay.cornerRadius := by
      simp [World.layerCornerRadius, ho3, assocGet_insert_ne _ _ _ _ hlidne, hL]
    have hradval : radius = Lay.cornerRadius := by
      rw [hradius, hwe, layerRadius_setLayerBg, hradwd]
    have hself : W2.layerCornerRadius (w.nextId + 1) = Lay.cornerRadius := by
      rw [hW2, layerRadius_setLayerMasks, layerRadius_setRadius_self _ _ _ hn10,
        hradval]
      rw [hwe, layersIsSome_setLayerBg, ho3]
      simp [assocGet_insert_self]
    refine ⟨rfl, ⟨?_, ?_, ?_⟩, fun i hi => by rw [hvli, ho4 i hi]⟩
    · rw [hvli]
      simp [ViewHandle.new, ViewHandle.as_id, ho2]
    · rw [hvli]
      simp only [ViewHandle.new, ViewHandle.as_id]
      rw [ho2]
      exact hself
    · rw [hW2, layerRadius_setLayerMasks, layerRadius_setRadius_ne _ _ _ _ hlidne,
        hwe, layerRadius_setLayerBg, hradwd]

-- ===========================================================================
-- C6: overlay corner radius mirrors the primary view's
-- ===========================================================================

/-- C6: whenever the fallback backend's `apply_tint` creates or reuses a
tint overlay, it sets the overlay layer's corner radius to the primary
glass view layer's current corner radius (first conjunct); and since
`apply_glass_config` writes the config's corner radius to the primary
layer immediately before applying the tint, an overlay existing after an
`apply_glass_config` on the fallback backend always carries exactly the
primary view's most recently set corner radius — both equal the config
value (second conjunct). -/
theorem overlay_mirrors_corner_radius :
    (∀ (w : World) (view layerId : ObjcId) (color : NSColor)
        (existing : Option ViewHandle) (Lay : CALayer),
      layerId ≠ 0 → assocGet w.layers layerId = some Lay →
      (∀ p ∈ w.views, p.1 < w.nextId) → (∀ p ∈ w.layers, p.1 < w.nextId) →
      0 < w.nextId →
      (∀ hnd, existing = some hnd → w.viewLayerId hnd.as_id ≠ 0 ∧
        (assocGet w.layers (w.viewLayerId hnd.as_id)).isSome = true) →
      ∀ o, (Backend.visualEffect.apply_tint view layerId color existing w).1 =
          some o →
        (Backend.visualEffect.apply_tint view layerId color existing
            w).2.layerCornerRadius
          ((Backend.visualEffect.apply_tint view layerId color existing
              w).2.viewLayerId o.as_id) = Lay.cornerRadius ∧
        (Backend.visualEffect.apply_tint view layerId color existing
            w).2.layerCornerRadius layerId = Lay.cornerRadius) ∧
    (∀ (env : PlatformEnv) (h : ViewHandle) (config : LiquidGlassConfig)
        (existing : Option ViewHandle) (w : World) (gv : NSView),
      glass_class_available env = false →
      w.getView h.as_id = some gv →
      (gv.layer = 0 ∨ (assocGet w.layers gv.layer).isSome = true) →
      (∀ p ∈ w.views, p.1 < w.nextId) → (∀ p ∈ w.layers, p.1 < w.nextId) →
      0 < w.nextId →
      (∀ hnd, existing = some hnd → w.viewLayerId hnd.as_id ≠ 0 ∧
        (assocGet w.layers (w.viewLayerId hnd.as_id)).isSome = true) →
      ∀ o, (apply_glass_config env h config existing w).1 = some o →
        (apply_glass_config env h config existing w).2.layerCornerRadius
          ((apply_glass_config env h config existing w).2.viewLayerId o.as_id) =
          config.corner_radius ∧
        (apply_glass_config env h config existing w).2.layerCornerRadius
          ((apply_glass_config env h config existing w).2.viewLayerId h.as_id) =
          config.corner_radius) := by
  constructor
  · intro w view layerId color existing Lay hlz hL hvlt hllt hpos hex o hres
    obtain ⟨o₀, hro, ⟨_, hrad_o, hrad_p⟩, _⟩ :=
      apply_tint_fallback_spec w view layerId color existing Lay hlz hL hvlt
        hllt hpos hex
    rw [hres] at hro
    obtain rfl : o = o₀ := Option.some_inj.mp hro
    exact ⟨hrad_o, hrad_p⟩
  · intro env h config existing w gv henv hv hcoh hvlt hllt hpos hex o hres
    have hb : get_backend env = .visualEffect := by
      simp [get_backend, henv]
    obtain ⟨cen, cr, ctc, cvar, cop⟩ := config
    simp only at hres ⊢
    rcases hac : apply_corner_radius h.as_id cr w with ⟨gl, w₁⟩
    have spec := apply_corner_radius_spec h.as_id cr w gv hv hcoh hvlt hllt hpos
    rw [hac] at spec
    simp only at spec
    obtain ⟨hgl0, hglr, hglsome, hvlg, hvlt1, hllt1, hpos1, hpres1, hlsome1⟩ := spec
    cases ctc with
    | none =>
      simp [apply_glass_config, hac, hb] at hres
    | some hexstr =>
      cases hcol : color_from_hex hexstr with
      | none => simp [apply_glass_config, hac, hb, hcol] at hres
      | some color =>
        obtain ⟨L₁, hL₁⟩ := Option.isSome_iff_exists.mp hglsome
        have hL₁r : L₁.cornerRadius = cr := by
          have hq := hglr
          simp [World.layerCornerRadius, hL₁] at hq
          exact hq
        have hex1 : ∀ hnd, existing = some hnd → w₁.viewLayerId hnd.as_id ≠ 0 ∧
            (assocGet w₁.layers (w₁.viewLayerId hnd.as_id)).isSome = true := by
          intro hnd hh
          obtain ⟨hz, hs⟩ := hex hnd hh
          have heq := hpres1 hnd.as_id hz
          rw [heq]
          exact ⟨hz, hlsome1 _ hs⟩
        obtain ⟨o₀, hro, ⟨ho₀z, hrad_o, hrad_p⟩, hpres2⟩ :=
          apply_tint_fallback_spec w₁ h.as_id gl color existing L₁ hgl0 hL₁
            hvlt1 hllt1 hpos1 hex1
        rcases hat : Backend.visualEffect.apply_tint h.as_id gl color existing w₁
          with ⟨res, w₂⟩
        rw [hat] at hro hpres2 hrad_o hrad_p ho₀z
        simp only at hro hpres2 hrad_o hrad_p ho₀z
        have hmain : apply_glass_config env h
            { enabled := cen, corner_radius := cr, tint_color := some hexstr,
              variant := cvar, opaqueBackground := cop } existing w = (res, w₂) := by
          simp [apply_glass_config, hac, hb, hcol, hat, Backend.set_variant]
        rw [hmain] at hres ⊢
        simp only at hres ⊢
        rw [hro] at hres
        obtain rfl : o₀ = o := Option.some_inj.mp hres
        constructor
        · rw [hrad_o, hL₁r]
        · have hpf : w₂.viewLayerId h.as_id = gl := by
            have hz : w₁.viewLayerId h.as_id ≠ 0 := by
              rw [hvlg]
              exact hgl0
            rw [hpres2 h.as_id hz, hvlg]
          rw [hpf, hrad_p, hL₁r]

/-- Witness for C6: on a concrete fallback-backend world, applying a config
with corner radius 24 and a valid tint creates an overlay whose layer
radius equals the primary layer's radius, both 24. -/
theorem overlay_mirrors_corner_radius_witness :
    (apply_glass_config
      { glassClassAvailable := false, isMacOS26OrLater := false,
        respondsPrivateVariant := fun _ => false,
        respondsPublicVariant := fun _ => false }
      ⟨1⟩ { corner_radius := 24, tint_color := some "#336699" } none
      { views := [(1, { cls := .visualEffectView })], layers := [],
        windows := [], nextId := 2 }).2.layerCornerRadius
      ((apply_glass_config
        { glassClassAvailable := false, isMacOS26OrLater := false,
          respondsPrivateVariant := fun _ => false,
          respondsPublicVariant := fun _ => false }
        ⟨1⟩ { corner_radius := 24, tint_color := some "#336699" } none
        { views := [(1, { cls := .visualEffectView })], layers := [],
          windows := [], nextId := 2 }).2.viewLayerId
        (ViewHandle.mk 3).as_id) = 24 ∧
    (apply_glass_config
      { glassClassAvailable := false, isMacOS26OrLater := false,
        respondsPrivateVariant := fun _ => false,
        respondsPublicVariant := fun _ => false }
      ⟨1⟩ { corner_radius := 24, tint_color := some "#336699" } none
      { views := [(1, { cls := .visualEffectView })], layers := [],
        windows := [], nextId := 2 }).2.layerCornerRadius
      ((apply_glass_config
        { glassClassAvailable := false, isMacOS26OrLater := false,
          respondsPrivateVariant := fun _ => false,
          respondsPublicVariant := fun _ => false }
        ⟨1⟩ { corner_radius := 24, tint_color := some "#336699" } none
        { views := [(1, { cls := .visualEffectView })], layers := [],
          windows := [], nextId := 2 }).2.viewLayerId
        (ViewHandle.mk 1).as_id) = 24 :=
  overlay_mirrors_corner_radius.2
    { glassClassAvailable := false, isMacOS26OrLater := false,
      respondsPrivateVariant := fun _ => false,
      respondsPublicVariant := fun _ => false }
    ⟨1⟩ { corner_radius := 24, tint_color := some "#336699" } none
    { views := [(1, { cls := .visualEffectView })], layers := [],
      windows := [], nextId := 2 }
    { cls := .visualEffectView }
    rfl (by decide) (Or.inl rfl) (by decide) (by decide) (by decide)
    (fun hnd hh => Option.noConfusion hh)
    ⟨3⟩ (by decide)

-- ===========================================================================
-- C1: dispatch and at-most-one-entry-per-key
-- ===========================================================================

theorem create_view_not_error (env : PlatformEnv) (bounds : NSRect) (w : World)
    (e : Error) (w' : World) :
    (get_backend env).create_view env bounds w ≠ (.error e, w') := by
  cases hg : env.glassClassAvailable <;>
    simp [get_backend, glass_class_available, hg, Backend.create_view,
      World.allocView]

/-- With a resolvable, non-nil content view, the main-thread creation step
always succeeds (both backends' `create_view` succeed once selected by the
capability check). -/
theorem create_and_attach_ok (env : PlatformEnv) (hnd : ViewHandle)
    (config : LiquidGlassConfig) (w : World)
    (hcv : w.windowContentView hnd.as_id ≠ 0) :
    ∃ gh t w', create_and_attach_glass_view env hnd config w = (.ok (gh, t), w') := by
  simp only [create_and_attach_glass_view]
  rw [if_neg hcv]
  rcases hcv2 : (get_backend env).create_view env
      (w.viewBounds (w.windowContentView hnd.as_id)) w with ⟨res, w1⟩
  cases res with
  | error e => exact absurd hcv2 (create_view_not_error env _ w e w1)
  | ok gid => exact ⟨_, _, _, rfl⟩

/-- A create that can resolve the window and its content view succeeds and
ends in an `insert` of the new handles under the window label. -/
theorem create_ok (env : PlatformEnv) (window : WindowRef)
    (config : LiquidGlassConfig) (st : SysState) (nsw : ObjcId)
    (hp : st.registry.poisoned = false)
    (hns : window.ns_window = some nsw)
    (hcv : st.world.windowContentView nsw ≠ 0) :
    ∃ gh t w', create_glass_effect env window config st =
      (.ok (),
       { world := w',
         registry :=
           { poisoned := false,
             views := assocInsert st.registry.views window.label ⟨gh, t⟩ } }) := by
  obtain ⟨w0, p, vs⟩ := st
  simp only at hp hcv
  subst hp
  obtain ⟨gh, t, w', hca⟩ := create_and_attach_ok env (ViewHandle.new nsw) config w0
    (by simpa [ViewHandle.new, ViewHandle.as_id] using hcv)
  refine ⟨gh, t, w', ?_⟩
  simp [create_glass_effect, hns, run_on_main_sync, hca, GlassViewRegistry.insert]

/-- An update on a present entry with a healthy lock succeeds and ends in an
`update_tint` of that label. -/
theorem update_ok (env : PlatformEnv) (window : WindowRef)
    (config : LiquidGlassConfig) (st : SysState) (e0 : GlassViewEntry)
    (hp : st.registry.poisoned = false)
    (he : assocGet st.registry.views window.label = some e0) :
    ∃ nt w', update_glass_effect env window config st =
      (.ok (),
       { world := w',
         registry :=
           { poisoned := false,
             views := assocUpdateTint st.registry.views window.label nt } }) := by
  obtain ⟨w0, p, vs⟩ := st
  simp only at hp he
  subst hp
  rcases hag : apply_glass_config env e0.glass_view config e0.tint_overlay w0
    with ⟨nt, w'⟩
  refine ⟨nt, w', ?_⟩
  simp [update_glass_effect, GlassViewRegistry.get, he, run_on_main_sync, hag,
    GlassViewRegistry.update_tint]

/-- C1: with `enabled = true` and a healthy lock, `set_liquid_glass_effect`
dispatches to the update path exactly when the registry already contains the
window's key and to the create path otherwise (first conjunct); two
consecutive enabled calls on the same key, starting from a unique-keys
registry on a state where the window resolves to a window with a content
view, leave exactly one registry entry for that key (second conjunct); and
every registry operation preserves the at-most-one-entry-per-key invariant
(third conjunct). -/
theorem set_effect_dispatch_unique_entry :
    (∀ (env : PlatformEnv) (window : WindowRef) (config : LiquidGlassConfig)
        (st : SysState),
      config.enabled = true → st.registry.poisoned = false →
      (((assocGet st.registry.views window.label).isSome = true →
        set_liquid_glass_effect env window config st =
          update_glass_effect env window config st) ∧
       (assocGet st.registry.views window.label = none →
        set_liquid_glass_effect env window config st =
          create_glass_effect env window config st))) ∧
    (∀ (env : PlatformEnv) (window : WindowRef)
        (config₁ config₂ : LiquidGlassConfig) (st : SysState) (nsw : ObjcId),
      config₁.enabled = true → config₂.enabled = true →
      st.registry.poisoned = false → keysNodupB st.registry.views = true →
      window.ns_window = some nsw →
      st.world.windowContentView nsw ≠ 0 →
      countKey ((set_liquid_glass_effect env window config₂
        ((set_liquid_glass_effect env window config₁ st).2)).2).registry.views
        window.label = 1) ∧
    (∀ (r : GlassViewRegistry) (label : String) (gv : ViewHandle)
        (t tint : Option ViewHandle),
      keysNodupB r.views = true →
      keysNodupB (r.contains label).2.views = true ∧
      keysNodupB (r.insert label gv t).2.views = true ∧
      keysNodupB (r.get label).2.views = true ∧
      keysNodupB (r.remove label).2.views = true ∧
      keysNodupB (r.update_tint label tint).2.views = true) := by
  have hdispatch : ∀ (env : PlatformEnv) (window : WindowRef)
      (config : LiquidGlassConfig) (st : SysState),
      config.enabled = true → st.registry.poisoned = false →
      (((assocGet st.registry.views window.label).isSome = true →
        set_liquid_glass_effect env window config st =
          update_glass_effect env window config st) ∧
       (assocGet st.registry.views window.label = none →
        set_liquid_glass_effect env window config st =
          create_glass_effect env window config st)) := by
    intro env window config st hen hp
    obtain ⟨w0, p, vs⟩ := st
    simp only at hp
    subst hp
    constructor
    · intro hsome
      simp [set_liquid_glass_effect, GlassViewRegistry.contains, hen, hsome]
    · intro hnone
      simp [set_liquid_glass_effect, GlassViewRegistry.contains, hen, hnone]
  refine ⟨hdispatch, ?_, ?_⟩
  · intro env window cfg1 cfg2 st nsw h1 h2 hp hn hns hcv
    obtain ⟨w0, p, vs⟩ := st
    simp only at hp hn hcv
    subst hp
    cases hlook : assocGet vs window.label with
    | none =>
      obtain ⟨gh, t, w', hcr⟩ := create_ok env window cfg1
        ⟨w0, { poisoned := false, views := vs }⟩ nsw rfl hns hcv
      have hfirst : set_liquid_glass_effect env window cfg1
          ⟨w0, { poisoned := false, views := vs }⟩ =
          (.ok (),
           { world := w',
             registry :=
               { poisoned := false,
                 views := assocInsert vs window.label ⟨gh, t⟩ } }) := by
        rw [(hdispatch env window cfg1
          ⟨w0, { poisoned := false, views := vs }⟩ h1 rfl).2 hlook]
        exact hcr
      rw [hfirst]
      have hlook2 : assocGet (assocInsert vs window.label ⟨gh, t⟩) window.label =
          some ⟨gh, t⟩ := assocGet_insert_self vs window.label ⟨gh, t⟩
      obtain ⟨nt, w'', hup⟩ := update_ok env window cfg2
        ⟨w', { poisoned := false, views := assocInsert vs window.label ⟨gh, t⟩ }⟩
        ⟨gh, t⟩ rfl hlook2
      have hsecond : set_liquid_glass_effect env window cfg2
          ⟨w', { poisoned := false, views := assocInsert vs window.label ⟨gh, t⟩ }⟩ =
          (.ok (),
           { world := w'',
             registry :=
               { poisoned := false,
                 views := assocUpdateTint (assocInsert vs window.label ⟨gh, t⟩)
                   window.label nt } }) := by
        rw [(hdispatch env window cfg2
          ⟨w', { poisoned := false, views := assocInsert vs window.label ⟨gh, t⟩ }⟩
          h2 rfl).1 (by rw [hlook2]; rfl)]
        exact hup
      rw [hsecond]
      simp only
      rw [countKey_updateTint]
      exact countKey_insert_of_nodup vs window.label ⟨gh, t⟩ hn
    | some e0 =>
      obtain ⟨nt, w', hup⟩ := update_ok env window cfg1
        ⟨w0, { poisoned := false, views := vs }⟩ e0 rfl hlook
      have hfirst : set_liquid_glass_effect env window cfg1
          ⟨w0, { poisoned := false, views := vs }⟩ =
          (.ok (),
           { world := w',
             registry :=
               { poisoned := false,
                 views := assocUpdateTint vs window.label nt } }) := by
        rw [(hdispatch env window cfg1
          ⟨w0, { poisoned := false, views := vs }⟩ h1 rfl).1 (by rw [hlook]; rfl)]
        exact hup
      rw [hfirst]
      have hlook2 : assocGet (assocUpdateTint vs window.label nt) window.label =
          some { e0 with tint_overlay := nt } := by
        rw [assocUpdateTint_lookup_self, hlook]
        rfl
      obtain ⟨nt2, w'', hup2⟩ := update_ok env window cfg2
        ⟨w', { poisoned := false, views := assocUpdateTint vs window.label nt }⟩
        { e0 with tint_overlay := nt } rfl hlook2
      have hsecond : set_liquid_glass_effect env window cfg2
          ⟨w', { poisoned := false, views := assocUpdateTint vs window.label nt }⟩ =
          (.ok (),
           { world := w'',
             registry :=
               { poisoned := false,
                 views := assocUpdateTint (assocUpdateTint vs window.label nt)
                   window.label nt2 } }) := by
        rw [(hdispatch env window cfg2
          ⟨w', { poisoned := false, views := assocUpdateTint vs window.label nt }⟩
          h2 rfl).1 (by rw [hlook2]; rfl)]
        exact hup2
      rw [hsecond]
      simp only
      rw [countKey_updateTint, countKey_updateTint]
      exact countKey_one_of_present vs window.label e0 hn hlook
  · intro r label gv t tint hn
    refine ⟨?_, ?_, ?_, ?_, ?_⟩
    · by_cases hp : r.poisoned <;>
        simp [GlassViewRegistry.contains, hp, hn]
    · by_cases hp : r.poisoned <;>
        simp [GlassViewRegistry.insert, hp, hn, keysNodupB_insert]
    · by_cases hp : r.poisoned <;>
        simp [GlassViewRegistry.get, hp, hn]
    · by_cases hp : r.poisoned <;>
        simp [GlassViewRegistry.remove, hp, hn, keysNodupB_remove]
    · by_cases hp : r.poisoned <;>
        simp [GlassViewRegistry.update_tint, hp, hn, keysNodupB_updateTint]

/-- Witness for C1: two consecutive enabled calls on a concrete fresh state
leave exactly one entry under the window label. -/
theorem set_effect_dispatch_unique_entry_witness :
    countKey ((set_liquid_glass_effect
      { glassClassAvailable := false, isMacOS26OrLater := false,
        respondsPrivateVariant := fun _ => false,
        respondsPublicVariant := fun _ => false }
      { label := "main", ns_window := some 100 }
      { corner_radius := 24 }
      ((set_liquid_glass_effect
        { glassClassAvailable := false, isMacOS26OrLater := false,
          respondsPrivateVariant := fun _ => false,
          respondsPublicVariant := fun _ => false }
        { label := "main", ns_window := some 100 } {}
        { world :=
            { views := [(1, { cls := .plainView, frame := { w := 800, h := 600 } })],
              layers := [], windows := [(100, { contentView := 1 })],
              nextId := 101 },
          registry := {} }).2)).2).registry.views "main" = 1 :=
  set_effect_dispatch_unique_entry.2.1
    { glassClassAvailable := false, isMacOS26OrLater := false,
      respondsPrivateVariant := fun _ => false,
      respondsPublicVariant := fun _ => false }
    { label := "main", ns_window := some 100 } {} { corner_radius := 24 }
    { world :=
        { views := [(1, { cls := .plainView, frame := { w := 800, h := 600 } })],
          layers := [], windows := [(100, { contentView := 1 })],
          nextId := 101 },
      registry := {} }
    100 rfl rfl rfl (by decide) rfl (by decide)

end LiquidGlass
